import Mathlib

/-! # namespaces.c : launcher of a child process in a chosen set of Linux namespaces

A shallow embedding of `src/namespaces.c`.

* Every call the program makes to libc or to the kernel is recorded as a `Call`
  in a trace; the outcome of each fallible call is read from an environment
  record (`ParentEnv` for the process running `main`, `ChildEnv` for the cloned
  child), so that a statement over all environments covers every combination of
  successes and failures.
* `getopt` is libc: it is modelled after glibc for the option string
  `"+hvpmu:ni:c:"` (leading `+`: scanning stops at the first non option).
* C `int` fields that only ever hold 0 or 1 (`verbose`, `ipc`, `jail`) are `Bool`;
  `char *` fields that may be `NULL` are `Option`.
* Bytes of a message buffer are natural numbers (`NUL` = 0, newline = 10).
* The allocations of lines 207, 226 and 252-257, which the program does not check, succeed.
  What `getopt` itself writes to the standard error stream is not recorded.
* The kernel is not modelled: which calls succeed is the choice of the environment. On Linux
  the queue that the parent creates belongs to its IPC namespace, so a child cloned with
  `CLONE_NEWIPC` (`-i yes`) cannot open it; `isolatedChild` below is such a child.
-/

namespace Namespaces

/-! ## Constants of the system headers (Linux) -/

/-- The `CLONE_NEWNS` bit of `sched.h`: new mount namespace. -/
def CLONE_NEWNS : Nat := 0x00020000
/-- The `CLONE_NEWUTS` bit of `sched.h`: new hostname namespace. -/
def CLONE_NEWUTS : Nat := 0x04000000
/-- The `CLONE_NEWIPC` bit of `sched.h`: new IPC namespace. -/
def CLONE_NEWIPC : Nat := 0x08000000
/-- The `CLONE_NEWPID` bit of `sched.h`: new PID namespace. -/
def CLONE_NEWPID : Nat := 0x20000000
/-- The `CLONE_NEWNET` bit of `sched.h`: new network namespace. -/
def CLONE_NEWNET : Nat := 0x40000000
/-- The number of `SIGCHLD` in `signal.h`, the exit signal put in the low byte of the clone flags. -/
def SIGCHLD : Nat := 17
/-- The `MS_REC` mount flag. -/
def MS_REC : Nat := 16384
/-- The `MS_PRIVATE` mount flag. -/
def MS_PRIVATE : Nat := 262144
/-- Status of `exit(EXIT_SUCCESS)`. -/
def EXIT_SUCCESS : Nat := 0
/-- Status of `exit(EXIT_FAILURE)`. -/
def EXIT_FAILURE : Nat := 1
/-- Size of the stack handed to the child (line 24). -/
def STACK_SIZE : Nat := 64 * 1024
/-- Name of the message queue (line 27). -/
def mq_name : String := "/ipc_namespace"

/-! ## Data model -/

/-- The struct `arguments` of lines 29-37. -/
structure arguments where
  verbose : Bool
  flags : Nat
  ipc : Bool
  jail : Bool
  path : Option String
  hostname : Option String
  command : Option (List String)
  deriving DecidableEq, Repr

/-- One observable action of a process: a library or system call, with its arguments. -/
inductive Call where
  /-- The block of `fprintf(stderr, ...)` of `usage(prog)`. -/
  | usage (prog : String)
  /-- A single `fprintf(stderr, ...)` outside `usage`. -/
  | fprintf_stderr (text : String)
  /-- A call `perror(tag)`. -/
  | perror (tag : String)
  /-- A diagnostic `printf`; the text is the format string, numeric arguments are not recorded. -/
  | printf (text : String)
  /-- The `printf` of line 296, which shows the C string found in the receive buffer. -/
  | printf_received (msg : List Nat)
  /-- The call `mq_open(name, O_CREAT | O_RDWR, 0644, &attr)` of `prepareMQ`. -/
  | mq_open_create (name : String) (maxmsg msgsize : Nat)
  /-- The call `mq_open(name, O_WRONLY)` of the child. -/
  | mq_open_wronly (name : String)
  | mq_getattr
  | fgets (size : Nat)
  | mq_send (msg : List Nat) (len : Nat)
  | mq_timedreceive (len : Nat) (deadline_sec deadline_nsec : Int)
  | mq_close
  | mq_unlink (name : String)
  | malloc (size : Nat)
  | clone (flags : Nat)
  | clock_gettime
  | waitpid
  | chroot (path : Option String)
  | chdir (path : String)
  | access (path : String)
  | mkdir (path : String) (mode : Nat)
  | mount (source target fstype : String) (flags : Nat)
  | sethostname (name : String) (len : Nat)
  | clearenv
  | execvp (file : Option String) (argv : List String)
  deriving DecidableEq, Repr

/-- Outcomes of the calls made by the child, one field per call site of `childFunction`.
A `Bool` is `true` when the call succeeds. -/
structure ChildEnv where
  /-- Line 97: `mq_open(mq_name, O_WRONLY) != -1`: the queue of the parent is visible to the
  child and can be opened. -/
  mq_open : Bool
  /-- Line 99: the `mq_msgsize` that `mq_getattr(mq, &attr)` reports, `none` when it fails. -/
  mq_getattr : Option Nat
  /-- Bytes that standard input delivers before end of file. -/
  stdin : List Nat
  /-- Content of freshly allocated memory (not initialised by `malloc`). -/
  heap : List Nat
  /-- Line 107: `mq_send(...) != -1`. -/
  mq_send : Bool
  /-- Line 114: `mq_close(mq) != -1`. -/
  mq_close : Bool
  /-- Line 129: `chroot(args->path) != -1` for a path that is not `NULL`. -/
  chroot : Bool
  /-- Line 136: `chdir("/") != -1`. -/
  chdir : Bool
  /-- Line 140: `access("/proc", F_OK) == 0`. -/
  access_proc : Bool
  /-- Line 141: `mkdir("/proc", 0555) != -1`. -/
  mkdir : Bool
  /-- Line 152: the mount that makes `/proc` private succeeds. -/
  mount_private : Bool
  /-- Line 154: the mount of the proc filesystem succeeds. -/
  mount_proc : Bool
  /-- Line 160: `sethostname(...) != -1`. -/
  sethostname : Bool
  /-- Line 165: `clearenv() == 0`. -/
  clearenv : Bool
  /-- Line 169: `execvp` replaces the process image (it does not return). -/
  execvp : Bool
  deriving DecidableEq, Repr

/-- How the child process ends. -/
inductive ChildOutcome where
  /-- The child called `exit(status)`. -/
  | exited (status : Nat)
  /-- The call `execvp(file, argv)` succeeded: the child now runs the command. -/
  | replaced (file : Option String) (argv : List String)
  /-- The child dereferenced a null pointer (`strlen(NULL)`). -/
  | fault
  deriving DecidableEq, Repr

/-- What a run of `childFunction` produces. -/
structure ChildResult where
  /-- Calls made, in order. -/
  trace : List Call
  /-- The message put on the queue by a successful `mq_send`, if any. -/
  sent : Option (List Nat)
  outcome : ChildOutcome
  deriving DecidableEq, Repr

/-- Outcomes of the calls made by the process running `main`. -/
structure ParentEnv where
  /-- Line 69: `mq_open(...) != -1` in `prepareMQ`. -/
  mq_open : Bool
  /-- Line 271: `malloc(STACK_SIZE) != NULL`. -/
  malloc : Bool
  /-- Line 278: `clone(...) != -1`. -/
  clone : Bool
  /-- Line 289: the time `(tv_sec, tv_nsec)` read by `clock_gettime`, `none` when it fails. -/
  clock : Option (Int × Int)
  /-- Line 291: the `mq_msgsize` that `mq_getattr(mq, &attr)` reports, `none` when it fails
  (81 when `prepareMQ` created the queue; the attributes passed to `mq_open` are ignored when
  the queue already exists). -/
  mq_getattr : Option Nat
  /-- Line 293: a message that is on the queue reaches `mq_timedreceive` before the
  deadline and the call is not interrupted. With no message on the queue the call fails at the
  deadline whatever this field says. -/
  mq_receive : Bool
  /-- Content of freshly allocated memory (not initialised by `malloc`). -/
  heap : List Nat
  /-- Line 310: `waitpid(child, NULL, 0) != -1`. -/
  waitpid : Bool
  /-- Line 319: `mq_close(mq) != -1`. -/
  mq_close : Bool
  /-- Line 323: `mq_unlink(mq_name) != -1`. -/
  mq_unlink : Bool
  deriving DecidableEq, Repr

/-! ## getopt (glibc), for the option string of line 203 -/

/-- The option string of line 203 after its leading `+`. -/
def optstring : List Char := "hvpmu:ni:c:".data

/-- Result of looking an option character up in the option string (`strchr` in glibc):
`none` when it is no option, `some true` when it takes an argument. -/
def optLookup (c : Char) : Option Bool :=
  if c = ':' ∨ c = ';' then none
  else match optstring.dropWhile (fun d => d != c) with
    | [] => none
    | _ :: ':' :: _ => some true
    | _ => some false

/-- Scanning state of `getopt`: `nextchar` is the unread part of the option cluster being
scanned, `rest` the elements of `argv` after that cluster. -/
structure GetoptState where
  nextchar : List Char
  rest : List String
  deriving DecidableEq, Repr

/-- What one call of `getopt` returns. -/
inductive GetoptResult where
  /-- The value -1: no option is left; `operands` is `argv[optind .. argc)`. -/
  | done (operands : List String)
  /-- An option character (the value `?` for an error) with the value of `optarg`. -/
  | opt (c : Char) (optarg : Option String) (next : GetoptState)
  deriving DecidableEq, Repr

/-- Handling of one option character `c` taken from a cluster whose unread part is `cs`. -/
def getoptChar (c : Char) (cs : List Char) (rest : List String) : GetoptResult :=
  match optLookup c with
  | none => .opt '?' none ⟨cs, rest⟩
  | some false => .opt c none ⟨cs, rest⟩
  | some true =>
    match cs with
    | _ :: _ => .opt c (some (String.mk cs)) ⟨[], rest⟩
    | [] =>
      match rest with
      | [] => .opt '?' none ⟨[], []⟩
      | a :: rest' => .opt c (some a) ⟨[], rest'⟩

/-- One call `getopt(argc, argv, "+hvpmu:ni:c:")`. -/
def getopt (s : GetoptState) : GetoptResult :=
  match s.nextchar with
  | c :: cs => getoptChar c cs s.rest
  | [] =>
    match s.rest with
    | [] => .done []
    | a :: rest =>
      if a = "--" then .done rest
      else match a.data with
        | '-' :: c :: cs => getoptChar c cs rest
        | _ => .done (a :: rest)

/-- Number of characters `getopt` has still to look at; it bounds the number of calls. -/
def GetoptState.size (s : GetoptState) : Nat :=
  s.nextchar.length + (s.rest.map (fun a => a.length + 1)).sum

/-! ## main, lines 193-258: building the configuration -/

/-- Result of the body of the `switch` of lines 204-244 for one option. -/
inductive SwitchResult where
  /-- The case ends in `break`: the loop goes on with these values of `args` and `flags`. -/
  | next (args : arguments) (flags : Nat)
  /-- The case calls `exit(status)` after writing `out`. -/
  | exit (status : Nat) (out : List Call)
  /-- The case passes a null `optarg` to `strlen` or `strcmp`. -/
  | fault
  deriving DecidableEq, Repr

/-- The `switch (option)` of lines 204-244. -/
def mainSwitch (prog : String) (option : Char) (optarg : Option String)
    (args : arguments) (flags : Nat) : SwitchResult :=
  if option = 'c' then
    match optarg with
    | none => .fault
    | some a => .next { args with jail := true, path := some a } flags
  else if option = 'i' then
    match optarg with
    | none => .fault
    | some a =>
      if a ≠ "no" ∧ a ≠ "yes" then
        .exit EXIT_FAILURE
          [.fprintf_stderr (prog ++ ": option requires valid argument -- \x27i\x27\n"), .usage prog]
      else
        .next { args with ipc := true } (if a = "yes" then flags ||| CLONE_NEWIPC else flags)
  else if option = 'n' then .next args (flags ||| CLONE_NEWNET)
  else if option = 'u' then
    match optarg with
    | none => .fault
    | some a => .next { args with hostname := some a } (flags ||| CLONE_NEWUTS)
  else if option = 'm' then .next args (flags ||| CLONE_NEWNS)
  else if option = 'p' then .next args (flags ||| CLONE_NEWPID)
  else if option = 'v' then .next { args with verbose := true } flags
  else if option = 'h' then .exit EXIT_SUCCESS [.usage prog]
  else .exit EXIT_FAILURE [.usage prog]

/-- Result of lines 193-258. -/
inductive Parsed where
  /-- The loop ended: the configuration, the local `flags`, and `argv[optind .. argc)`. -/
  | ok (args : arguments) (flags : Nat) (operands : List String)
  | exit (status : Nat) (out : List Call)
  | fault
  /-- The bound on the number of iterations was reached (shown below never to happen). -/
  | outOfFuel
  deriving DecidableEq, Repr

/-- The `while` loop of lines 203-245, run for at most `fuel` calls of `getopt`. -/
def optionLoop (prog : String) : Nat → GetoptState → arguments → Nat → Parsed
  | 0, _, _, _ => .outOfFuel
  | fuel + 1, s, args, flags =>
    match getopt s with
    | .done operands => .ok args flags operands
    | .opt c optarg s' =>
      match mainSwitch prog c optarg args flags with
      | .next args' flags' => optionLoop prog fuel s' args' flags'
      | .exit status out => .exit status out
      | .fault => .fault

/-- The initial values of lines 193-199. -/
def initialArguments : arguments :=
  { verbose := false, flags := 0, ipc := false, jail := false,
    path := none, hostname := none, command := none }

/-- Lines 193-258 of `main`, for `argv[0] = prog` and `argv[1 .. argc) = av`:
option parsing, `args.flags = flags`, and the assembly of the command. -/
def parseCommandLine (prog : String) (av : List String) : Parsed :=
  match optionLoop prog (GetoptState.size ⟨[], av⟩ + 1) ⟨[], av⟩ initialArguments 0 with
  | .ok args flags operands =>
    .ok { args with flags := flags,
                    command := if operands = [] then none else some operands } flags operands
  | r => r

/-! ## childFunction, lines 82-176 -/

/-- The characters `fgets` takes from the input when `k` more fit: it stops after a newline. -/
def readLine : Nat → List Nat → List Nat
  | 0, _ => []
  | _ + 1, [] => []
  | k + 1, c :: cs => if c = 10 then [c] else c :: readLine k cs

/-- The call `fgets(buf, size, stdin)` of libc: the characters stored in front of the
terminating `NUL`, or `none` for a `NULL` result (nothing could be read). -/
def fgets (size : Nat) (stdin : List Nat) : Option (List Nat) :=
  if size = 0 then none
  else if size = 1 then some []
  else match stdin with
    | [] => none
    | _ :: _ => some (readLine (size - 1) stdin)

/-- A block of `size` bytes as `malloc` returns it: its content is whatever the heap held. -/
def buffer (size : Nat) (heap : List Nat) : List Nat :=
  (List.range size).map (fun i => heap.getD i 0)

/-- Writing the bytes `s` at the start of the buffer `buf`. -/
def store (buf s : List Nat) : List Nat :=
  s ++ buf.drop s.length

/-- The value `strcspn(msg, "\n")`: the length of the part of the C string in `msg` that comes
before its first newline. -/
def strcspn_newline (msg : List Nat) : Nat :=
  (msg.takeWhile (fun c => c != 0 && c != 10)).length

/-- The C string held in a buffer: the bytes in front of the first `NUL` (what `%s` shows). -/
def cstring (buf : List Nat) : List Nat :=
  buf.takeWhile (fun c => c != 0)

/-- The trace of a diagnostic that is written only with `-v`. -/
def verbosely (args : arguments) (text : String) : List Call :=
  if args.verbose then [.printf text] else []

/-- Lines 102-111: reading the line and sending it, on a queue of message size `size`. -/
def sendLine (args : arguments) (env : ChildEnv) (size : Nat) : List Call × Option (List Nat) :=
  match fgets size env.stdin with
  | some line =>
    let msg := store (buffer size env.heap) (line ++ [0])
    let msg := msg.set (strcspn_newline msg) 0
    ([.fgets size, .printf "\n"] ++ verbosely args " Child: sending message to parent\n"
        ++ [.mq_send msg size]
        ++ (if env.mq_send then [] else [.perror " Child: childFunction: mq_send"]),
     if env.mq_send then some (msg.take size) else none)
  | none => ([.fgets size, .perror " Child: childFunction: fgets"], none)

/-- Lines 93-123: the message to the parent, when `-i` was given. -/
def handshake (args : arguments) (env : ChildEnv) : List Call × Option (List Nat) :=
  if args.ipc then
    if env.mq_open then
      match env.mq_getattr with
      | some size =>
        (verbosely args " Child: opening message queue %s\n" ++ [.mq_open_wronly mq_name]
          ++ [.mq_getattr, .malloc size,
              .printf "\n     Child: enter a message to send to the parent process (MAX 80 chars)\n     >> "]
          ++ (sendLine args env size).1
          ++ verbosely args " Child: closing message queue %s\n" ++ [.mq_close]
          ++ (if env.mq_close then [] else [.perror " Child: childFunction: mq_close"]),
         (sendLine args env size).2)
      | none =>
        (verbosely args " Child: opening message queue %s\n" ++ [.mq_open_wronly mq_name]
          ++ [.mq_getattr, .perror " Child: childFunction: mq_getattr"], none)
    else
      (verbosely args " Child: opening message queue %s\n" ++ [.mq_open_wronly mq_name]
        ++ [.perror " Child: childFunction: mq_open"], none)
  else ([], none)

/-- Lines 125-146: the chroot jail. The second component is `false` when the stage ends in
`exit(EXIT_FAILURE)`. A null path makes `chroot` fail. -/
def jailStage (args : arguments) (env : ChildEnv) : List Call × Bool :=
  if args.jail then
    if args.path.isSome && env.chroot then
      if env.chdir then
        if env.access_proc then
          (verbosely args " Child: creating chroot jail\n" ++ [.chroot args.path]
            ++ verbosely args " Child: changing directory into chroot jail\n"
            ++ [.chdir "/", .access "/proc"], true)
        else if env.mkdir then
          (verbosely args " Child: creating chroot jail\n" ++ [.chroot args.path]
            ++ verbosely args " Child: changing directory into chroot jail\n"
            ++ [.chdir "/", .access "/proc", .mkdir "/proc" 0o555], true)
        else
          (verbosely args " Child: creating chroot jail\n" ++ [.chroot args.path]
            ++ verbosely args " Child: changing directory into chroot jail\n"
            ++ [.chdir "/", .access "/proc", .mkdir "/proc" 0o555,
                .perror " Child: childFunction: mkdir"], false)
      else
        (verbosely args " Child: creating chroot jail\n" ++ [.chroot args.path]
          ++ verbosely args " Child: changing directory into chroot jail\n"
          ++ [.chdir "/", .perror " Child: childFunction: chdir"], false)
    else
      (verbosely args " Child: creating chroot jail\n" ++ [.chroot args.path]
        ++ [.perror " Child: childFunction: chroot"], false)
  else ([], true)

/-- Lines 148-156: the mount of a new proc instance. -/
def procRemount (args : arguments) (env : ChildEnv) : List Call :=
  if args.flags &&& CLONE_NEWPID ≠ 0 ∧ args.flags &&& CLONE_NEWNS ≠ 0 then
    (if !args.jail then
      [.mount "none" "/proc" "" (MS_REC ||| MS_PRIVATE)]
        ++ (if env.mount_private then [] else [.perror " Child: childFunction: mount"])
     else [])
    ++ [.mount "proc" "/proc" "proc" 0]
    ++ (if env.mount_proc then [] else [.perror " Child: childFunction: mount"])
  else []

/-- Lines 158-161: the hostname of the new UTS namespace; `none` when `strlen` is handed a
null hostname. -/
def hostnameStage (args : arguments) (env : ChildEnv) : Option (List Call) :=
  if args.flags &&& CLONE_NEWUTS ≠ 0 then
    match args.hostname with
    | none => none
    | some name =>
      some ([.sethostname name name.utf8ByteSize]
        ++ (if env.sethostname then [] else [.perror " Child: childFunction: sethostname"]))
  else some []

/-- Lines 163-175: the command, or the end of the child. -/
def execStage (args : arguments) (env : ChildEnv) : List Call × ChildOutcome :=
  match args.command with
  | some command =>
    if env.execvp then
      ([.clearenv]
        ++ (if env.clearenv then []
            else [.fprintf_stderr " Child: childFunction: couldn\x27t clear environment\n"])
        ++ verbosely args " Child: executing command %s ...\n"
        ++ [.execvp command.head? command],
       .replaced command.head? command)
    else
      ([.clearenv]
        ++ (if env.clearenv then []
            else [.fprintf_stderr " Child: childFunction: couldn\x27t clear environment\n"])
        ++ verbosely args " Child: executing command %s ...\n"
        ++ [.execvp command.head? command, .perror " Child: childFunction: execvp"],
       .exited EXIT_FAILURE)
  | none => ([], .exited EXIT_SUCCESS)

/-- The function `childFunction` of lines 82-176, run in the cloned child. -/
def childFunction (args : arguments) (env : ChildEnv) : ChildResult :=
  let t0 := verbosely args " Child: PID of child is %d\n"
  let t1 := (handshake args env).1
  let t2 := (jailStage args env).1
  if (jailStage args env).2 then
    let t3 := procRemount args env
    match hostnameStage args env with
    | none => ⟨t0 ++ t1 ++ t2 ++ t3, (handshake args env).2, .fault⟩
    | some t4 =>
      ⟨t0 ++ t1 ++ t2 ++ t3 ++ t4 ++ (execStage args env).1, (handshake args env).2,
        (execStage args env).2⟩
  else ⟨t0 ++ t1 ++ t2, (handshake args env).2, .exited EXIT_FAILURE⟩

/-! ## main, lines 260-331: the launch -/

/-- The function `prepareMQ` of lines 57-78; the descriptor it returns is not -1 exactly
when `env.mq_open` holds. -/
def prepareMQ (args : arguments) (env : ParentEnv) : List Call :=
  [.mq_open_create mq_name 10 81]
    ++ (if env.mq_open then verbosely args "Parent: opening message queue %s\n"
        else [.perror "Parent: prepareMQ: mq_open"])

/-- The call `mq_timedreceive` on a queue that holds `queue`, with a buffer of `len` bytes:
the message, or `none` when the call fails (nothing arrives before the deadline, or the buffer
is smaller than the message). -/
def mq_timedreceive (queue : Option (List Nat)) (len : Nat) (arrives : Bool) :
    Option (List Nat) :=
  match queue with
  | some m => if arrives && decide (m.length ≤ len) then some m else none
  | none => none

/-- Lines 287-307: the timed receive of the message of the child, `queue` being what the child
put on the queue. -/
def receiveStage (args : arguments) (env : ParentEnv) (queue : Option (List Nat)) : List Call :=
  if args.ipc then
    match env.clock with
    | some (tv_sec, tv_nsec) =>
      match env.mq_getattr with
      | some size =>
        [.clock_gettime, .mq_getattr, .malloc size, .mq_timedreceive size (tv_sec + 60) tv_nsec]
          ++ (match mq_timedreceive queue size env.mq_receive with
              | some m =>
                verbosely args "Parent: received message from child\n"
                  ++ [.printf_received (cstring (store (buffer size env.heap) m))]
              | none => [.perror "Parent: main: mq_timedreceive"])
      | none => [.clock_gettime, .mq_getattr, .perror "Parent: main: mq_getattr"]
    | none => [.clock_gettime, .perror "Parent: main: clock_gettime"]
  else []

/-- Lines 315-325: closing and removing the queue. -/
def removeMQ (args : arguments) (env : ParentEnv) : List Call :=
  if args.ipc then
    verbosely args "Parent: closing message queue %s\n" ++ [.mq_close]
      ++ (if env.mq_close then [] else [.perror "Parent: main: mq_close"])
      ++ verbosely args "Parent: removing message queue %s\n" ++ [.mq_unlink mq_name]
      ++ (if env.mq_unlink then [] else [.perror "Parent: main: mq_unlink"])
  else []

/-- How the process running `main` ends. -/
inductive MainOutcome where
  | exited (status : Nat)
  | fault
  | outOfFuel
  deriving DecidableEq, Repr

/-- A whole run of the program. -/
structure Run where
  /-- Calls made by the process running `main`, in order. -/
  parent : List Call
  outcome : MainOutcome
  /-- The run of the child, when `clone` created one. -/
  child : Option ChildResult
  deriving DecidableEq, Repr

/-- Lines 260-331 of `main`. The child created by `clone` runs `childFunction` on its own copy
of `args`; `waitpid` is given a null status pointer, so nothing of the way the child ended
reaches the parent. -/
def launch (args : arguments) (flags : Nat) (penv : ParentEnv) (cenv : ChildEnv) : Run :=
  let t0 := verbosely args "Parent: PID of parent is %d\n"
  let t1 := if args.ipc then prepareMQ args penv else []
  if args.ipc && !penv.mq_open then ⟨t0 ++ t1, .exited EXIT_FAILURE, none⟩
  else if !penv.malloc then
    ⟨t0 ++ t1 ++ [.malloc STACK_SIZE, .perror "Parent: main: malloc"], .exited EXIT_FAILURE, none⟩
  else if !penv.clone then
    ⟨t0 ++ t1 ++ [.malloc STACK_SIZE, .clone (flags ||| SIGCHLD), .perror "Parent: main: clone"],
      .exited EXIT_FAILURE, none⟩
  else
    let child := childFunction args cenv
    let t2 := t0 ++ t1 ++ [.malloc STACK_SIZE, .clone (flags ||| SIGCHLD)]
      ++ verbosely args "Parent: PID of child is %d\n"
      ++ receiveStage args penv child.sent ++ [.waitpid]
    if !penv.waitpid then
      ⟨t2 ++ [.perror "Parent: main: waitpid"], .exited EXIT_FAILURE, some child⟩
    else
      ⟨t2 ++ removeMQ args penv ++ verbosely args "Parent: %s - Finishing up\n",
        .exited EXIT_SUCCESS, some child⟩

/-- The function `main` of lines 180-331, for `argv[0] = prog` and `argv[1 .. argc) = av`. -/
def main (prog : String) (av : List String) (penv : ParentEnv) (cenv : ChildEnv) : Run :=
  match parseCommandLine prog av with
  | .ok args flags _ => launch args flags penv cenv
  | .exit status out => ⟨out, .exited status, none⟩
  | .fault => ⟨[], .fault, none⟩
  | .outOfFuel => ⟨[], .outOfFuel, none⟩

/-! ## Vocabulary of the statements -/

/-- The options `getopt` returns when it is called until it returns -1, each with its
`optarg`, and the operands left after them; `fuel` bounds the number of calls. -/
def scanOptions : Nat → GetoptState → List (Char × Option String) × List String
  | 0, _ => ([], [])
  | fuel + 1, s =>
    match getopt s with
    | .done operands => ([], operands)
    | .opt c optarg s' => ((c, optarg) :: (scanOptions fuel s').1, (scanOptions fuel s').2)

/-- The options given on the command line `av`, in order, as `getopt` reads them. -/
def optionsGiven (av : List String) : List (Char × Option String) :=
  (scanOptions (GetoptState.size ⟨[], av⟩ + 1) ⟨[], av⟩).1

/-- The trailing arguments of the command line `av`: what follows the options. -/
def operandsGiven (av : List String) : List String :=
  (scanOptions (GetoptState.size ⟨[], av⟩ + 1) ⟨[], av⟩).2

/-- The loop of lines 203-245 over a list of options that `getopt` has already read. -/
def runOptions (prog : String) (operands : List String) :
    List (Char × Option String) → arguments → Nat → Parsed
  | [], args, flags => .ok args flags operands
  | (c, optarg) :: os, args, flags =>
    match mainSwitch prog c optarg args flags with
    | .next args' flags' => runOptions prog operands os args' flags'
    | .exit status out => .exit status out
    | .fault => .fault

/-- The options the `switch` of lines 204-244 accepts without leaving the program: v, p, m, n,
u and c, and i with the argument `no` or `yes`. -/
def validOption (o : Char × Option String) : Bool :=
  o.1 == 'v' || o.1 == 'p' || o.1 == 'm' || o.1 == 'n' || o.1 == 'u' || o.1 == 'c'
    || o == ('i', some "no") || o == ('i', some "yes")

/-- The namespace flag an accepted option stands for, 0 when it stands for none. -/
def capabilityOf (o : Char × Option String) : Nat :=
  if o.1 = 'p' then CLONE_NEWPID
  else if o.1 = 'm' then CLONE_NEWNS
  else if o.1 = 'u' then CLONE_NEWUTS
  else if o.1 = 'n' then CLONE_NEWNET
  else if o = ('i', some "yes") then CLONE_NEWIPC
  else 0

/-- The flags a list of options stands for. -/
def capabilities : List (Char × Option String) → Nat
  | [] => 0
  | o :: os => capabilityOf o ||| capabilities os

/-- The last option `c` in a list of options, if there is one. -/
def lastOption (c : Char) (opts : List (Char × Option String)) : Option (Char × Option String) :=
  (opts.filter (fun o => o.1 == c)).getLast?

/-- The argument of the last option `c` in a list of options, if there is one. -/
def lastArgument (c : Char) (opts : List (Char × Option String)) : Option String :=
  (lastOption c opts).bind (fun o => o.2)

/-- What `main` writes when the `switch` leaves the program at the option `o`. -/
def exitOutput (prog : String) (o : Char × Option String) : List Call :=
  if o.1 = 'i' then
    [.fprintf_stderr (prog ++ ": option requires valid argument -- \x27i\x27\n"), .usage prog]
  else [.usage prog]

/-- The status with which the `switch` leaves the program at the option `o`. -/
def exitStatus (o : Char × Option String) : Nat :=
  if o.1 = 'h' then EXIT_SUCCESS else EXIT_FAILURE

/-- The argument of the last option `c` in a list of options, or `previous` when the list has
no option `c`. -/
def lastArgumentOr (c : Char) (opts : List (Char × Option String)) (previous : Option String) :
    Option String :=
  match lastOption c opts with
  | some o => o.2
  | none => previous

/-- The part of the program a call belongs to. -/
inductive Stage where
  /-- Text written to the standard streams. -/
  | diagnostic
  /-- The message queue, the line read for it, the memory allocated, and the display of the
  message received. -/
  | message
  /-- Creating the child and waiting for it. -/
  | process
  /-- The chroot jail of lines 125-146. -/
  | jail
  /-- The mounts of lines 148-156. -/
  | procRemount
  /-- The hostname of lines 158-161. -/
  | hostname
  /-- The command of lines 163-170. -/
  | exec
  deriving DecidableEq, Repr

/-- The part of the program each call belongs to. -/
def Call.stage : Call → Stage
  | .usage _ => .diagnostic
  | .fprintf_stderr _ => .diagnostic
  | .perror _ => .diagnostic
  | .printf _ => .diagnostic
  | .printf_received _ => .message
  | .mq_open_create _ _ _ => .message
  | .mq_open_wronly _ => .message
  | .mq_getattr => .message
  | .fgets _ => .message
  | .mq_send _ _ => .message
  | .mq_timedreceive _ _ _ => .message
  | .mq_close => .message
  | .mq_unlink _ => .message
  | .malloc _ => .message
  | .clock_gettime => .message
  | .clone _ => .process
  | .waitpid => .process
  | .chroot _ => .jail
  | .chdir _ => .jail
  | .access _ => .jail
  | .mkdir _ _ => .jail
  | .mount _ _ _ _ => .procRemount
  | .sethostname _ _ => .hostname
  | .clearenv => .exec
  | .execvp _ _ => .exec

/-- The calls of a trace that belong to one of the stages `ss`, in the order of the trace. -/
def project (ss : List Stage) (t : List Call) : List Call :=
  t.filter (fun c => ss.contains c.stage)

/-! ## Environments used in the examples -/

/-- A child for which every call succeeds, on a queue of 81 byte messages; the user types
`hi` and a newline, and fresh memory is filled with the byte 7. -/
def succeedingChild : ChildEnv :=
  { mq_open := true, mq_getattr := some 81, stdin := [104, 105, 10], heap := List.replicate 81 7,
    mq_send := true, mq_close := true, chroot := true, chdir := true, access_proc := true,
    mkdir := true, mount_private := true, mount_proc := true, sethostname := true,
    clearenv := true, execvp := true }

/-- A parent for which every call succeeds, on a queue of 81 byte messages; the clock reads
1000 s and 5 ns, and fresh memory is filled with the byte 9. -/
def succeedingParent : ParentEnv :=
  { mq_open := true, malloc := true, clone := true, clock := some (1000, 5),
    mq_getattr := some 81, mq_receive := true, heap := List.replicate 81 9,
    waitpid := true, mq_close := true, mq_unlink := true }

/-- The configuration of `-p -m -c /nonexistent sh`. -/
def jailedArguments : arguments :=
  { verbose := false, flags := CLONE_NEWPID ||| CLONE_NEWNS, ipc := false, jail := true,
    path := some "/nonexistent", hostname := none, command := some ["sh"] }

/-- A child for which every call but `chroot` succeeds. -/
def failingChroot : ChildEnv :=
  { succeedingChild with chroot := false }

/-- A child in which every step that only warns fails: the queue cannot be opened, both mounts,
`sethostname` and `clearenv` fail; the jail calls and `execvp` succeed. -/
def degradedChild : ChildEnv :=
  { mq_open := false, mq_getattr := none, stdin := [], heap := [], mq_send := false,
    mq_close := false, chroot := true, chdir := true, access_proc := true, mkdir := true,
    mount_private := false, mount_proc := false, sethostname := false, clearenv := false,
    execvp := true }

/-- A child for which every call but `execvp` succeeds. -/
def failingExecvp : ChildEnv :=
  { succeedingChild with execvp := false }

/-- A child that cannot open the queue of the parent, as in a new IPC namespace, in which the
queues of the namespace of the parent do not exist; every other call succeeds. -/
def isolatedChild : ChildEnv :=
  { succeedingChild with mq_open := false }

/-- A child for which every call succeeds and whose user types a line of 100 letters `a`. -/
def longLineChild : ChildEnv :=
  { succeedingChild with stdin := List.replicate 100 97 ++ [10] }

/-- A parent for which every call but `waitpid` succeeds. -/
def failingWaitpid : ParentEnv :=
  { succeedingParent with waitpid := false }

/-! # Properties -/

/-! ## getopt -/

theorem getoptChar_size (c : Char) (cs : List Char) (rest : List String) (c' : Char)
    (x : Option String) (s' : GetoptState) (h : getoptChar c cs rest = .opt c' x s') :
    s'.size ≤ cs.length + (rest.map (fun a => a.length + 1)).sum := by
  unfold getoptChar at h
  split at h
  · cases h; simp [GetoptState.size]
  · cases h; simp [GetoptState.size]
  · split at h
    · cases h; simp [GetoptState.size]
    · split at h
      · cases h; simp [GetoptState.size]
      · cases h; simp [GetoptState.size]

theorem getopt_size (s : GetoptState) (c : Char) (x : Option String) (s' : GetoptState)
    (h : getopt s = .opt c x s') : s'.size < s.size := by
  obtain ⟨nc, rest⟩ := s
  unfold getopt at h
  cases nc with
  | cons c0 cs =>
    have := getoptChar_size _ _ _ _ _ _ h
    simp [GetoptState.size] at this ⊢
    omega
  | nil =>
    cases rest with
    | nil => simp at h
    | cons a rest =>
      simp only at h
      split at h
      · cases h
      · split at h
        · rename_i c1 cs1 hd
          have := getoptChar_size _ _ _ _ _ _ h
          have hl : a.length = cs1.length + 2 := by
            simp [String.length, hd]
          simp [GetoptState.size] at this ⊢
          omega
        · cases h

theorem getoptChar_optarg (c : Char) (cs : List Char) (rest : List String) (c' : Char)
    (x : Option String) (s' : GetoptState) (h : getoptChar c cs rest = .opt c' x s')
    (hc : c' = 'u' ∨ c' = 'i' ∨ c' = 'c') : x.isSome = true := by
  unfold getoptChar at h
  split at h
  · cases h; rcases hc with hc | hc | hc <;> exact absurd hc (by decide)
  · rename_i hl
    cases h
    rcases hc with hc | hc | hc <;> subst hc <;> exact absurd hl (by decide)
  · split at h
    · cases h; rfl
    · split at h
      · cases h; rcases hc with hc | hc | hc <;> exact absurd hc (by decide)
      · cases h; rfl

theorem getopt_optarg (s : GetoptState) (c : Char) (x : Option String) (s' : GetoptState)
    (h : getopt s = .opt c x s') (hc : c = 'u' ∨ c = 'i' ∨ c = 'c') : x.isSome = true := by
  obtain ⟨nc, rest⟩ := s
  unfold getopt at h
  cases nc with
  | cons c0 cs => exact getoptChar_optarg _ _ _ _ _ _ h hc
  | nil =>
    cases rest with
    | nil => simp at h
    | cons a rest =>
      simp only at h
      split at h
      · cases h
      · split at h
        · exact getoptChar_optarg _ _ _ _ _ _ h hc
        · cases h

/-- Every option in a scan has its argument when it is one of u, i, c. -/
theorem scanOptions_optarg : ∀ (fuel : Nat) (s : GetoptState) (o : Char × Option String),
    o ∈ (scanOptions fuel s).1 → (o.1 = 'u' ∨ o.1 = 'i' ∨ o.1 = 'c') → o.2.isSome = true
  | 0, _, o, h, _ => by simp [scanOptions] at h
  | fuel + 1, s, o, h, hc => by
    unfold scanOptions at h
    split at h
    · simp at h
    · rename_i c x s' hg
      simp only [List.mem_cons] at h
      rcases h with h | h
      · subst h; exact getopt_optarg _ _ _ _ hg hc
      · exact scanOptions_optarg fuel s' o h hc

theorem optionLoop_eq_runOptions (prog : String) : ∀ (fuel : Nat) (s : GetoptState)
    (args : arguments) (flags : Nat), s.size < fuel →
    optionLoop prog fuel s args flags
      = runOptions prog (scanOptions fuel s).2 (scanOptions fuel s).1 args flags
  | 0, _, _, _, h => by omega
  | fuel + 1, s, args, flags, h => by
    unfold optionLoop scanOptions
    cases hg : getopt s with
    | done ops => simp [runOptions]
    | opt c x s' =>
      have hs := getopt_size _ _ _ _ hg
      simp only [runOptions]
      cases hm : mainSwitch prog c x args flags with
      | next a' f' => simp only; exact optionLoop_eq_runOptions prog fuel s' a' f' (by omega)
      | exit st out => rfl
      | fault => rfl

/-! ## The switch -/

theorem and_two_pow_ne_zero (x k : Nat) : x &&& 2 ^ k ≠ 0 ↔ x.testBit k = true := by
  constructor
  · intro h
    obtain ⟨i, hi⟩ := Nat.ne_zero_implies_bit_true h
    rw [Nat.testBit_and, Nat.testBit_two_pow] at hi
    simp only [Bool.and_eq_true, decide_eq_true_eq] at hi
    obtain ⟨h1, h2⟩ := hi
    subst h2; exact h1
  · intro h h0
    have : (x &&& 2 ^ k).testBit k = true := by
      rw [Nat.testBit_and, Nat.testBit_two_pow_self, h]; rfl
    rw [h0] at this
    simp at this

theorem mainSwitch_next (prog : String) (c : Char) (x : Option String) (a : arguments) (f : Nat)
    (a' : arguments) (f' : Nat) (h : mainSwitch prog c x a f = .next a' f') :
    validOption (c, x) = true ∧ f' = f ||| capabilityOf (c, x)
      ∧ a'.verbose = (a.verbose || c == 'v') ∧ a'.flags = a.flags
      ∧ a'.ipc = (a.ipc || c == 'i') ∧ a'.jail = (a.jail || c == 'c')
      ∧ a'.path = (if c = 'c' then x else a.path)
      ∧ a'.hostname = (if c = 'u' then x else a.hostname)
      ∧ a'.command = a.command := by
  unfold mainSwitch at h
  by_cases h1 : c = 'c'
  · subst h1
    cases x with
    | none => simp at h
    | some p =>
      simp only [if_true, SwitchResult.next.injEq] at h
      obtain ⟨rfl, rfl⟩ := h
      simp [validOption, capabilityOf]
  rw [if_neg h1] at h
  by_cases h2 : c = 'i'
  · subst h2
    cases x with
    | none => simp at h
    | some v =>
      simp only [if_true] at h
      split_ifs at h with h3 h4
      · simp only [SwitchResult.next.injEq] at h
        obtain ⟨rfl, rfl⟩ := h
        subst h4
        simp [validOption, capabilityOf]
      · simp only [SwitchResult.next.injEq] at h
        obtain ⟨rfl, rfl⟩ := h
        have hv : v = "no" := by
          by_contra hn; exact h3 ⟨hn, h4⟩
        subst hv
        simp [validOption, capabilityOf]
  rw [if_neg h2] at h
  by_cases h3 : c = 'n'
  · subst h3
    simp only [if_true, SwitchResult.next.injEq] at h
    obtain ⟨rfl, rfl⟩ := h
    simp [validOption, capabilityOf]
  rw [if_neg h3] at h
  by_cases h4 : c = 'u'
  · subst h4
    cases x with
    | none => simp at h
    | some p =>
      simp only [if_true, SwitchResult.next.injEq] at h
      obtain ⟨rfl, rfl⟩ := h
      simp [validOption, capabilityOf]
  rw [if_neg h4] at h
  by_cases h5 : c = 'm'
  · subst h5
    simp only [if_true, SwitchResult.next.injEq] at h
    obtain ⟨rfl, rfl⟩ := h
    simp [validOption, capabilityOf]
  rw [if_neg h5] at h
  by_cases h6 : c = 'p'
  · subst h6
    simp only [if_true, SwitchResult.next.injEq] at h
    obtain ⟨rfl, rfl⟩ := h
    simp [validOption, capabilityOf]
  rw [if_neg h6] at h
  by_cases h7 : c = 'v'
  · subst h7
    simp only [if_true, SwitchResult.next.injEq] at h
    obtain ⟨rfl, rfl⟩ := h
    simp [validOption, capabilityOf]
  rw [if_neg h7] at h
  split_ifs at h

theorem mainSwitch_next_optarg (prog : String) (c : Char) (x : Option String) (a : arguments)
    (f : Nat) (a' : arguments) (f' : Nat) (h : mainSwitch prog c x a f = .next a' f')
    (hc : c = 'u' ∨ c = 'i' ∨ c = 'c') : x.isSome = true := by
  cases x with
  | some v => rfl
  | none =>
    rcases hc with hc | hc | hc <;> subst hc <;> simp [mainSwitch] at h

theorem mainSwitch_of_valid (prog : String) (c : Char) (x : Option String) (a : arguments)
    (f : Nat) (hv : validOption (c, x) = true)
    (hx : (c = 'u' ∨ c = 'i' ∨ c = 'c') → x.isSome = true) :
    ∃ a' f', mainSwitch prog c x a f = .next a' f' := by
  simp only [validOption, Bool.or_eq_true, beq_iff_eq, Prod.mk.injEq] at hv
  rcases hv with ((((((hv | hv) | hv) | hv) | hv) | hv) | hv) | hv
  · subst hv; simp [mainSwitch]
  · subst hv; simp [mainSwitch]
  · subst hv; simp [mainSwitch]
  · subst hv; simp [mainSwitch]
  · subst hv
    obtain ⟨v, rfl⟩ := Option.isSome_iff_exists.mp (hx (Or.inl rfl))
    simp [mainSwitch]
  · subst hv
    obtain ⟨v, rfl⟩ := Option.isSome_iff_exists.mp (hx (Or.inr (Or.inr rfl)))
    simp [mainSwitch]
  · obtain ⟨rfl, rfl⟩ := hv
    simp [mainSwitch]
  · obtain ⟨rfl, rfl⟩ := hv
    simp [mainSwitch]

theorem mainSwitch_of_invalid (prog : String) (c : Char) (x : Option String) (a : arguments)
    (f : Nat) (hv : validOption (c, x) = false)
    (hx : (c = 'u' ∨ c = 'i' ∨ c = 'c') → x.isSome = true) :
    mainSwitch prog c x a f = .exit (exitStatus (c, x)) (exitOutput prog (c, x)) := by
  simp only [validOption, Bool.or_eq_false_iff, beq_eq_false_iff_ne, ne_eq, Prod.mk.injEq,
    not_and] at hv
  obtain ⟨⟨⟨⟨⟨⟨⟨h1, h2⟩, h3⟩, h4⟩, h5⟩, h6⟩, h7⟩, h8⟩ := hv
  by_cases hi : c = 'i'
  · subst hi
    obtain ⟨v, rfl⟩ := Option.isSome_iff_exists.mp (hx (Or.inr (Or.inl rfl)))
    have h7' : v ≠ "no" := fun e => h7 rfl (by rw [e])
    have h8' : v ≠ "yes" := fun e => h8 rfl (by rw [e])
    simp [mainSwitch, exitStatus, exitOutput, h7', h8']
  · by_cases hh : c = 'h'
    · subst hh
      simp [mainSwitch, exitStatus, exitOutput]
    · simp [mainSwitch, exitStatus, exitOutput, h1, h2, h3, h4, h5, h6, hi, hh]

/-! ## The loop over the options -/

theorem lastOption_cons (c : Char) (o : Char × Option String)
    (os : List (Char × Option String)) :
    lastOption c (o :: os)
      = match lastOption c os with
        | some l => some l
        | none => if o.1 = c then some o else none := by
  unfold lastOption
  by_cases h : o.1 = c
  · simp only [List.filter_cons, h, beq_self_eq_true, if_true]
    rw [List.getLast?_cons]
    cases (List.filter (fun o => o.1 == c) os).getLast? <;> rfl
  · have hb : (o.1 == c) = false := by simpa using h
    have hf : List.filter (fun o => o.1 == c) (o :: os) = List.filter (fun o => o.1 == c) os := by
      simp [List.filter_cons, hb]
    rw [hf]
    simp only [h, if_false]
    cases (List.filter (fun o => o.1 == c) os).getLast? <;> rfl

theorem lastArgumentOr_cons (c c0 : Char) (x : Option String)
    (os : List (Char × Option String)) (d : Option String) :
    lastArgumentOr c os (if c0 = c then x else d) = lastArgumentOr c ((c0, x) :: os) d := by
  unfold lastArgumentOr
  rw [lastOption_cons]
  cases lastOption c os with
  | some l => rfl
  | none => by_cases h : c0 = c <;> simp [h]

theorem runOptions_of_valid (prog : String) (ops : List String) :
    ∀ (opts : List (Char × Option String)) (a : arguments) (f : Nat),
      (∀ o ∈ opts, validOption o = true) →
      (∀ o ∈ opts, (o.1 = 'u' ∨ o.1 = 'i' ∨ o.1 = 'c') → o.2.isSome = true) →
      ∃ a' f', runOptions prog ops opts a f = .ok a' f' ops
  | [], a, f, _, _ => ⟨a, f, rfl⟩
  | (c, x) :: os, a, f, hv, hx => by
    obtain ⟨a1, f1, h1⟩ := mainSwitch_of_valid prog c x a f
      (hv _ (List.mem_cons_self _ _)) (hx _ (List.mem_cons_self _ _))
    simp only [runOptions, h1]
    exact runOptions_of_valid prog ops os a1 f1
      (fun o ho => hv o (List.mem_cons_of_mem _ ho))
      (fun o ho => hx o (List.mem_cons_of_mem _ ho))

theorem runOptions_exit (prog : String) (ops : List String) :
    ∀ (opts : List (Char × Option String)) (a : arguments) (f : Nat) (o : Char × Option String),
      (∀ o ∈ opts, (o.1 = 'u' ∨ o.1 = 'i' ∨ o.1 = 'c') → o.2.isSome = true) →
      opts.find? (fun o => !validOption o) = some o →
      runOptions prog ops opts a f = .exit (exitStatus o) (exitOutput prog o)
  | [], _, _, _, _, h => by simp at h
  | (c, x) :: os, a, f, o, hx, h => by
    cases hv : validOption (c, x) with
    | true =>
      obtain ⟨a1, f1, h1⟩ := mainSwitch_of_valid prog c x a f hv (hx _ (List.mem_cons_self _ _))
      simp only [List.find?_cons, hv, Bool.not_true] at h
      simp only [runOptions, h1]
      exact runOptions_exit prog ops os a1 f1 o (fun o ho => hx o (List.mem_cons_of_mem _ ho)) h
    | false =>
      simp only [List.find?_cons, hv, Bool.not_false, Option.some.injEq] at h
      subst h
      simp only [runOptions, mainSwitch_of_invalid prog c x a f hv (hx _ (List.mem_cons_self _ _))]

theorem runOptions_ok (prog : String) (ops : List String) :
    ∀ (opts : List (Char × Option String)) (a : arguments) (f : Nat) (a' : arguments) (f' : Nat)
      (ops' : List String), runOptions prog ops opts a f = .ok a' f' ops' →
      ops' = ops ∧ (∀ o ∈ opts, validOption o = true)
        ∧ (∀ o ∈ opts, (o.1 = 'u' ∨ o.1 = 'i' ∨ o.1 = 'c') → o.2.isSome = true)
        ∧ f' = f ||| capabilities opts
        ∧ a'.verbose = (a.verbose || opts.any (fun o => o.1 == 'v'))
        ∧ a'.flags = a.flags
        ∧ a'.ipc = (a.ipc || opts.any (fun o => o.1 == 'i'))
        ∧ a'.jail = (a.jail || opts.any (fun o => o.1 == 'c'))
        ∧ a'.path = lastArgumentOr 'c' opts a.path
        ∧ a'.hostname = lastArgumentOr 'u' opts a.hostname
        ∧ a'.command = a.command
  | [], a, f, a', f', ops', h => by
    simp only [runOptions, Parsed.ok.injEq] at h
    obtain ⟨rfl, rfl, rfl⟩ := h
    simp [capabilities, lastArgumentOr, lastOption]
  | (c, x) :: os, a, f, a', f', ops', h => by
    simp only [runOptions] at h
    cases hm : mainSwitch prog c x a f with
    | exit st out => rw [hm] at h; cases h
    | fault => rw [hm] at h; cases h
    | next a1 f1 =>
      rw [hm] at h
      obtain ⟨h1, h2, h3, h4, h5, h6, h7, h8, h9⟩ := mainSwitch_next prog c x a f a1 f1 hm
      obtain ⟨g0, g1, g2, g3, g4, g5, g6, g7, g8, g9, g10⟩ :=
        runOptions_ok prog ops os a1 f1 a' f' ops' h
      refine ⟨g0, ?_, ?_, ?_, ?_, ?_, ?_, ?_, ?_, ?_, ?_⟩
      · intro o ho
        rcases List.mem_cons.mp ho with rfl | ho
        · exact h1
        · exact g1 o ho
      · intro o ho hc
        rcases List.mem_cons.mp ho with rfl | ho
        · exact mainSwitch_next_optarg prog _ _ a f a1 f1 hm hc
        · exact g2 o ho hc
      · rw [g3, h2, capabilities, Nat.lor_assoc]
      · rw [g4, h3, List.any_cons, Bool.or_assoc]
      · rw [g5, h4]
      · rw [g6, h5, List.any_cons, Bool.or_assoc]
      · rw [g7, h6, List.any_cons, Bool.or_assoc]
      · rw [g8, h7, lastArgumentOr_cons]
      · rw [g9, h8, lastArgumentOr_cons]
      · rw [g10, h9]

/-! ## Lines 193-258 as a whole -/

theorem parseCommandLine_eq (prog : String) (av : List String) :
    parseCommandLine prog av
      = match runOptions prog (operandsGiven av) (optionsGiven av) initialArguments 0 with
        | .ok args flags operands =>
          .ok { args with flags := flags,
                          command := if operands = [] then none else some operands } flags operands
        | r => r := by
  unfold parseCommandLine optionsGiven operandsGiven
  rw [optionLoop_eq_runOptions _ _ _ _ _ (Nat.lt_succ_self _)]

theorem optionsGiven_optarg (av : List String) (o : Char × Option String)
    (ho : o ∈ optionsGiven av) (hc : o.1 = 'u' ∨ o.1 = 'i' ∨ o.1 = 'c') : o.2.isSome = true :=
  scanOptions_optarg _ _ o ho hc

theorem parse_ok (prog : String) (av : List String) (args : arguments) (flags : Nat)
    (ops : List String) (h : parseCommandLine prog av = .ok args flags ops) :
    ops = operandsGiven av ∧ (∀ o ∈ optionsGiven av, validOption o = true)
      ∧ flags = capabilities (optionsGiven av) ∧ args.flags = flags
      ∧ args.verbose = (optionsGiven av).any (fun o => o.1 == 'v')
      ∧ args.ipc = (optionsGiven av).any (fun o => o.1 == 'i')
      ∧ args.jail = (optionsGiven av).any (fun o => o.1 == 'c')
      ∧ args.path = lastArgument 'c' (optionsGiven av)
      ∧ args.hostname = lastArgument 'u' (optionsGiven av)
      ∧ args.command = (if ops = [] then none else some ops) := by
  rw [parseCommandLine_eq] at h
  cases hr : runOptions prog (operandsGiven av) (optionsGiven av) initialArguments 0 with
  | exit st out => rw [hr] at h; cases h
  | fault => rw [hr] at h; cases h
  | outOfFuel => rw [hr] at h; cases h
  | ok a f o =>
    rw [hr] at h
    simp only [Parsed.ok.injEq] at h
    obtain ⟨rfl, rfl, rfl⟩ := h
    obtain ⟨g0, g1, _, g3, g4, _, g6, g7, g8, g9, _⟩ := runOptions_ok _ _ _ _ _ _ _ _ hr
    refine ⟨g0, g1, ?_, rfl, ?_, ?_, ?_, ?_, ?_, rfl⟩
    · rw [g3, Nat.zero_or]
    · simpa [initialArguments] using g4
    · simpa [initialArguments] using g6
    · simpa [initialArguments] using g7
    · show a.path = lastArgument 'c' (optionsGiven av)
      rw [g8]
      unfold lastArgumentOr lastArgument
      cases lastOption 'c' (optionsGiven av) <;> rfl
    · show a.hostname = lastArgument 'u' (optionsGiven av)
      rw [g9]
      unfold lastArgumentOr lastArgument
      cases lastOption 'u' (optionsGiven av) <;> rfl

theorem parse_of_valid (prog : String) (av : List String)
    (hv : ∀ o ∈ optionsGiven av, validOption o = true) :
    ∃ args, parseCommandLine prog av = .ok args args.flags (operandsGiven av) := by
  obtain ⟨a, f, h⟩ := runOptions_of_valid prog (operandsGiven av) (optionsGiven av)
    initialArguments 0 hv (optionsGiven_optarg av)
  rw [parseCommandLine_eq, h]
  exact ⟨_, rfl⟩

theorem parse_exit (prog : String) (av : List String) (o : Char × Option String)
    (h : (optionsGiven av).find? (fun o => !validOption o) = some o) :
    parseCommandLine prog av = .exit (exitStatus o) (exitOutput prog o) := by
  rw [parseCommandLine_eq,
    runOptions_exit prog (operandsGiven av) (optionsGiven av) initialArguments 0 o
      (optionsGiven_optarg av) h]

/-- The loop always ends, and never hands a null `optarg` to `strlen` or `strcmp`. -/
theorem parse_total (prog : String) (av : List String) :
    (∃ args, parseCommandLine prog av = .ok args args.flags (operandsGiven av))
      ∨ ∃ o, o ∈ optionsGiven av ∧ validOption o = false
          ∧ parseCommandLine prog av = .exit (exitStatus o) (exitOutput prog o) := by
  cases hf : (optionsGiven av).find? (fun o => !validOption o) with
  | none =>
    left
    apply parse_of_valid
    intro o ho
    have := List.find?_eq_none.mp hf o ho
    simpa using this
  | some o =>
    right
    refine ⟨o, List.mem_of_find?_eq_some hf, ?_, parse_exit prog av o hf⟩
    have := List.find?_some hf
    simpa using this

/-! ## The flags -/

theorem capabilities_testBit (k : Nat) : ∀ opts : List (Char × Option String),
    (capabilities opts).testBit k = opts.any (fun o => (capabilityOf o).testBit k)
  | [] => by simp [capabilities]
  | o :: os => by
    rw [capabilities, Nat.testBit_or, capabilities_testBit k os, List.any_cons]

theorem capabilityOf_testBit (o : Char × Option String) (k : Nat) :
    (capabilityOf o).testBit k = true ↔
      (k = 29 ∧ o.1 = 'p') ∨ (k = 17 ∧ o.1 = 'm') ∨ (k = 26 ∧ o.1 = 'u')
        ∨ (k = 30 ∧ o.1 = 'n') ∨ (k = 27 ∧ o = ('i', some "yes")) := by
  have e1 : CLONE_NEWPID = 2 ^ 29 := by decide
  have e2 : CLONE_NEWNS = 2 ^ 17 := by decide
  have e3 : CLONE_NEWUTS = 2 ^ 26 := by decide
  have e4 : CLONE_NEWNET = 2 ^ 30 := by decide
  have e5 : CLONE_NEWIPC = 2 ^ 27 := by decide
  unfold capabilityOf
  split_ifs with h1 h2 h3 h4 h5
  · rw [e1, Nat.testBit_two_pow]
    simp only [decide_eq_true_eq, h1]
    constructor
    · intro h; exact Or.inl ⟨h.symm, trivial⟩
    · rintro (⟨h, -⟩ | ⟨-, h⟩ | ⟨-, h⟩ | ⟨-, h⟩ | ⟨-, h⟩)
      · exact h.symm
      · exact absurd h (by decide)
      · exact absurd h (by decide)
      · exact absurd h (by decide)
      · rw [h] at h1; exact absurd h1 (by decide)
  · rw [e2, Nat.testBit_two_pow]
    simp only [decide_eq_true_eq, h2]
    constructor
    · intro h; exact Or.inr (Or.inl ⟨h.symm, trivial⟩)
    · rintro (⟨-, h⟩ | ⟨h, -⟩ | ⟨-, h⟩ | ⟨-, h⟩ | ⟨-, h⟩)
      · exact absurd h (by decide)
      · exact h.symm
      · exact absurd h (by decide)
      · exact absurd h (by decide)
      · rw [h] at h2; exact absurd h2 (by decide)
  · rw [e3, Nat.testBit_two_pow]
    simp only [decide_eq_true_eq, h3]
    constructor
    · intro h; exact Or.inr (Or.inr (Or.inl ⟨h.symm, trivial⟩))
    · rintro (⟨-, h⟩ | ⟨-, h⟩ | ⟨h, -⟩ | ⟨-, h⟩ | ⟨-, h⟩)
      · exact absurd h (by decide)
      · exact absurd h (by decide)
      · exact h.symm
      · exact absurd h (by decide)
      · rw [h] at h3; exact absurd h3 (by decide)
  · rw [e4, Nat.testBit_two_pow]
    simp only [decide_eq_true_eq, h4]
    constructor
    · intro h; exact Or.inr (Or.inr (Or.inr (Or.inl ⟨h.symm, trivial⟩)))
    · rintro (⟨-, h⟩ | ⟨-, h⟩ | ⟨-, h⟩ | ⟨h, -⟩ | ⟨-, h⟩)
      · exact absurd h (by decide)
      · exact absurd h (by decide)
      · exact absurd h (by decide)
      · exact h.symm
      · rw [h] at h4; exact absurd h4 (by decide)
  · rw [e5, Nat.testBit_two_pow]
    simp only [decide_eq_true_eq, h5]
    constructor
    · intro h; exact Or.inr (Or.inr (Or.inr (Or.inr ⟨h.symm, trivial⟩)))
    · rintro (⟨-, h⟩ | ⟨-, h⟩ | ⟨-, h⟩ | ⟨-, h⟩ | ⟨h, -⟩)
      · exact absurd h (by decide)
      · exact absurd h (by decide)
      · exact absurd h (by decide)
      · exact absurd h (by decide)
      · exact h.symm
  · simp only [Nat.zero_testBit, Bool.false_eq_true, false_iff]
    rintro (⟨-, h⟩ | ⟨-, h⟩ | ⟨-, h⟩ | ⟨-, h⟩ | ⟨-, h⟩)
    · exact h1 h
    · exact h2 h
    · exact h3 h
    · exact h4 h
    · exact h5 h
/-! ## The stage of each call -/

@[simp] theorem stage_usage : ∀ p, (Call.usage p).stage = .diagnostic := by intros; rfl
@[simp] theorem stage_fprintf_stderr : ∀ s, (Call.fprintf_stderr s).stage = .diagnostic := by intros; rfl
@[simp] theorem stage_perror : ∀ s, (Call.perror s).stage = .diagnostic := by intros; rfl
@[simp] theorem stage_printf : ∀ s, (Call.printf s).stage = .diagnostic := by intros; rfl
@[simp] theorem stage_printf_received : ∀ m, (Call.printf_received m).stage = .message := by intros; rfl
@[simp] theorem stage_mq_open_create : ∀ a b c, (Call.mq_open_create a b c).stage = .message := by intros; rfl
@[simp] theorem stage_mq_open_wronly : ∀ a, (Call.mq_open_wronly a).stage = .message := by intros; rfl
@[simp] theorem stage_mq_getattr : Call.mq_getattr.stage = .message := rfl
@[simp] theorem stage_fgets : ∀ n, (Call.fgets n).stage = .message := by intros; rfl
@[simp] theorem stage_mq_send : ∀ m n, (Call.mq_send m n).stage = .message := by intros; rfl
@[simp] theorem stage_mq_timedreceive : ∀ n a b, (Call.mq_timedreceive n a b).stage = .message := by intros; rfl
@[simp] theorem stage_mq_close : Call.mq_close.stage = .message := rfl
@[simp] theorem stage_mq_unlink : ∀ a, (Call.mq_unlink a).stage = .message := by intros; rfl
@[simp] theorem stage_malloc : ∀ n, (Call.malloc n).stage = .message := by intros; rfl
@[simp] theorem stage_clock_gettime : Call.clock_gettime.stage = .message := rfl
@[simp] theorem stage_clone : ∀ k, (Call.clone k).stage = .process := by intros; rfl
@[simp] theorem stage_waitpid : Call.waitpid.stage = .process := rfl
@[simp] theorem stage_chroot : ∀ p, (Call.chroot p).stage = .jail := by intros; rfl
@[simp] theorem stage_chdir : ∀ p, (Call.chdir p).stage = .jail := by intros; rfl
@[simp] theorem stage_access : ∀ p, (Call.access p).stage = .jail := by intros; rfl
@[simp] theorem stage_mkdir : ∀ p m, (Call.mkdir p m).stage = .jail := by intros; rfl
@[simp] theorem stage_mount : ∀ a b c d, (Call.mount a b c d).stage = .procRemount := by intros; rfl
@[simp] theorem stage_sethostname : ∀ a n, (Call.sethostname a n).stage = .hostname := by intros; rfl
@[simp] theorem stage_clearenv : Call.clearenv.stage = .exec := rfl
@[simp] theorem stage_execvp : ∀ f a, (Call.execvp f a).stage = .exec := by intros; rfl

/-! ## The calls of each part of the program -/

theorem verbosely_stage (args : arguments) (t : String) :
    ∀ c ∈ verbosely args t, c.stage = .diagnostic := by
  unfold verbosely
  split_ifs
  · intro c hc
    rw [List.mem_singleton] at hc
    subst hc
    rfl
  · intro c hc
    cases hc

theorem sendLine_stage (args : arguments) (env : ChildEnv) (size : Nat) :
    ∀ c ∈ (sendLine args env size).1, c.stage = .diagnostic ∨ c.stage = .message := by
  have hv := verbosely_stage args
  unfold sendLine
  cases fgets size env.stdin <;> cases env.mq_send
  all_goals try simp only [if_true, if_false, Bool.false_eq_true, List.forall_mem_append,
    List.forall_mem_cons, List.not_mem_nil, false_imp_iff, implies_true, and_true, true_and]
  all_goals repeat' apply And.intro
  all_goals first | trivial | exact Or.inl rfl | exact Or.inr rfl
                  | exact fun c hc => Or.inl (hv _ c hc)

theorem handshake_stage (args : arguments) (env : ChildEnv) :
    ∀ c ∈ (handshake args env).1, c.stage = .diagnostic ∨ c.stage = .message := by
  have hv := verbosely_stage args
  have hs := sendLine_stage args env
  unfold handshake
  cases args.ipc <;> cases env.mq_open <;> cases env.mq_getattr <;> cases env.mq_close
  all_goals try simp only [if_true, if_false, Bool.false_eq_true, List.forall_mem_append,
    List.forall_mem_cons, List.not_mem_nil, false_imp_iff, implies_true, and_true, true_and]
  all_goals repeat' apply And.intro
  all_goals first | trivial | exact Or.inl rfl | exact Or.inr rfl
                  | exact fun c hc => Or.inl (hv _ c hc) | exact hs _

theorem jailStage_stage (args : arguments) (env : ChildEnv) :
    ∀ c ∈ (jailStage args env).1, c.stage = .diagnostic ∨ c.stage = .jail := by
  have hv := verbosely_stage args
  unfold jailStage
  split_ifs
  all_goals try simp only [if_true, if_false, Bool.false_eq_true, List.forall_mem_append,
    List.forall_mem_cons, List.not_mem_nil, false_imp_iff, implies_true, and_true, true_and]
  all_goals repeat' apply And.intro
  all_goals first | trivial | exact Or.inl rfl | exact Or.inr rfl
                  | exact fun c hc => Or.inl (hv _ c hc)

theorem procRemount_stage (args : arguments) (env : ChildEnv) :
    ∀ c ∈ procRemount args env, c.stage = .diagnostic ∨ c.stage = .procRemount := by
  unfold procRemount
  split_ifs
  all_goals try simp only [if_true, if_false, Bool.false_eq_true, List.forall_mem_append,
    List.forall_mem_cons, List.not_mem_nil, false_imp_iff, implies_true, and_true, true_and]
  all_goals repeat' apply And.intro
  all_goals trivial

theorem hostnameStage_stage (args : arguments) (env : ChildEnv) (t : List Call)
    (h : hostnameStage args env = some t) :
    ∀ c ∈ t, c.stage = .diagnostic ∨ c.stage = .hostname := by
  unfold hostnameStage at h
  split_ifs at h <;> (try split at h) <;> cases h
  all_goals try simp only [if_true, if_false, Bool.false_eq_true, List.forall_mem_append,
    List.forall_mem_cons, List.not_mem_nil, false_imp_iff, implies_true, and_true, true_and]
  all_goals repeat' apply And.intro
  all_goals first | trivial | exact Or.inl rfl | exact Or.inr rfl

theorem execStage_stage (args : arguments) (env : ChildEnv) :
    ∀ c ∈ (execStage args env).1, c.stage = .diagnostic ∨ c.stage = .exec := by
  have hv := verbosely_stage args
  unfold execStage
  split <;> (try split_ifs)
  all_goals try simp only [if_true, if_false, Bool.false_eq_true, List.forall_mem_append,
    List.forall_mem_cons, List.not_mem_nil, false_imp_iff, implies_true, and_true, true_and]
  all_goals repeat' apply And.intro
  all_goals first | trivial | exact Or.inl rfl | exact Or.inr rfl
                  | exact fun c hc => Or.inl (hv _ c hc)

theorem prepareMQ_stage (args : arguments) (env : ParentEnv) :
    ∀ c ∈ prepareMQ args env, c.stage = .diagnostic ∨ c.stage = .message := by
  have hv := verbosely_stage args
  unfold prepareMQ
  split_ifs
  all_goals try simp only [if_true, if_false, Bool.false_eq_true, List.forall_mem_append,
    List.forall_mem_cons, List.not_mem_nil, false_imp_iff, implies_true, and_true, true_and]
  all_goals repeat' apply And.intro
  all_goals first | trivial | exact Or.inl rfl | exact Or.inr rfl
                  | exact fun c hc => Or.inl (hv _ c hc)

theorem receiveStage_stage (args : arguments) (env : ParentEnv) (q : Option (List Nat)) :
    ∀ c ∈ receiveStage args env q, c.stage = .diagnostic ∨ c.stage = .message := by
  have hv := verbosely_stage args
  unfold receiveStage
  split_ifs <;> (try split) <;> (try split) <;> (try split)
  all_goals try simp only [if_true, if_false, Bool.false_eq_true, List.forall_mem_append,
    List.forall_mem_cons, List.not_mem_nil, false_imp_iff, implies_true, and_true, true_and]
  all_goals repeat' apply And.intro
  all_goals first | trivial | exact Or.inl rfl | exact Or.inr rfl
                  | exact fun c hc => Or.inl (hv _ c hc)

theorem removeMQ_stage (args : arguments) (env : ParentEnv) :
    ∀ c ∈ removeMQ args env, c.stage = .diagnostic ∨ c.stage = .message := by
  have hv := verbosely_stage args
  unfold removeMQ
  split_ifs
  all_goals try simp only [if_true, if_false, Bool.false_eq_true, List.forall_mem_append,
    List.forall_mem_cons, List.not_mem_nil, false_imp_iff, implies_true, and_true, true_and]
  all_goals repeat' apply And.intro
  all_goals first | trivial | exact Or.inl rfl | exact Or.inr rfl
                  | exact fun c hc => Or.inl (hv _ c hc)

/-! ## Projections of a trace -/

theorem project_append (ss : List Stage) (a b : List Call) :
    project ss (a ++ b) = project ss a ++ project ss b := by
  unfold project
  rw [List.filter_append]

theorem mem_project (ss : List Stage) (t : List Call) (c : Call) :
    c ∈ project ss t ↔ c ∈ t ∧ c.stage ∈ ss := by
  unfold project
  rw [List.mem_filter, List.contains_iff_exists_mem_beq]
  simp only [beq_iff_eq, exists_eq_right']

theorem project_eq_nil (ss : List Stage) (t : List Call) (s1 s2 : Stage)
    (h : ∀ c ∈ t, c.stage = s1 ∨ c.stage = s2) (h1 : s1 ∉ ss) (h2 : s2 ∉ ss) :
    project ss t = [] := by
  unfold project
  rw [List.filter_eq_nil_iff]
  intro c hc hs
  rw [List.contains_iff_exists_mem_beq] at hs
  obtain ⟨s, hs, e⟩ := hs
  rw [beq_iff_eq] at e
  subst e
  rcases h c hc with e | e
  · exact h1 (e ▸ hs)
  · exact h2 (e ▸ hs)

theorem project_verbosely (ss : List Stage) (args : arguments) (t : String)
    (h : Stage.diagnostic ∉ ss) : project ss (verbosely args t) = [] :=
  project_eq_nil ss _ .diagnostic .diagnostic
    (fun c hc => Or.inl (verbosely_stage args t c hc)) h h

theorem project_handshake (ss : List Stage) (args : arguments) (env : ChildEnv)
    (h1 : Stage.diagnostic ∉ ss) (h2 : Stage.message ∉ ss) :
    project ss (handshake args env).1 = [] :=
  project_eq_nil ss _ _ _ (handshake_stage args env) h1 h2

/-! ## The run of the child -/

theorem childFunction_trace (args : arguments) (env : ChildEnv) :
    (childFunction args env).trace
      = verbosely args " Child: PID of child is %d\n" ++ (handshake args env).1
          ++ (jailStage args env).1
          ++ (if (jailStage args env).2 then
                procRemount args env
                  ++ (match hostnameStage args env with
                      | none => []
                      | some t => t ++ (execStage args env).1)
              else []) := by
  unfold childFunction
  cases (jailStage args env).2 <;> cases hostnameStage args env <;>
    simp only [if_true, if_false, Bool.false_eq_true, List.append_nil, List.append_assoc]

theorem childFunction_outcome (args : arguments) (env : ChildEnv) :
    (childFunction args env).outcome
      = if (jailStage args env).2 then
          (match hostnameStage args env with
           | none => .fault
           | some _ => (execStage args env).2)
        else .exited EXIT_FAILURE := by
  unfold childFunction
  cases (jailStage args env).2 <;> cases hostnameStage args env <;>
    simp only [if_true, if_false, Bool.false_eq_true]

theorem childFunction_sent (args : arguments) (env : ChildEnv) :
    (childFunction args env).sent = (handshake args env).2 := by
  unfold childFunction
  cases (jailStage args env).2 <;> cases hostnameStage args env <;>
    simp only [if_true, if_false, Bool.false_eq_true]

theorem project_childFunction (ss : List Stage) (args : arguments) (env : ChildEnv)
    (h1 : Stage.diagnostic ∉ ss) (h2 : Stage.message ∉ ss) :
    project ss (childFunction args env).trace
      = project ss (jailStage args env).1
          ++ (if (jailStage args env).2 then
                project ss (procRemount args env)
                  ++ (match hostnameStage args env with
                      | none => []
                      | some t => project ss t ++ project ss (execStage args env).1)
              else []) := by
  rw [childFunction_trace, project_append, project_append, project_append,
    project_verbosely ss args _ h1, project_handshake ss args env h1 h2]
  cases (jailStage args env).2 <;> cases hostnameStage args env <;>
    simp only [if_true, if_false, Bool.false_eq_true, List.nil_append, project_append] <;> rfl

/-- The parsed configuration never has the hostname flag without a hostname, so the child does
not hand a null pointer to `strlen`. -/
theorem hostnameStage_isSome (args : arguments) (env : ChildEnv)
    (h : args.flags &&& CLONE_NEWUTS ≠ 0 → args.hostname.isSome = true) :
    ∃ t, hostnameStage args env = some t := by
  unfold hostnameStage
  by_cases hu : args.flags &&& CLONE_NEWUTS ≠ 0
  · have := h hu
    rw [if_pos hu]
    cases hh : args.hostname with
    | none => rw [hh] at this; cases this
    | some name => exact ⟨_, rfl⟩
  · rw [if_neg hu]
    exact ⟨_, rfl⟩

/-! ## The run of the parent -/

theorem main_of_ok (prog : String) (av : List String) (penv : ParentEnv) (cenv : ChildEnv)
    (args : arguments) (flags : Nat) (ops : List String)
    (h : parseCommandLine prog av = .ok args flags ops) :
    main prog av penv cenv = launch args flags penv cenv := by
  unfold main
  rw [h]

theorem main_of_exit (prog : String) (av : List String) (penv : ParentEnv) (cenv : ChildEnv)
    (st : Nat) (out : List Call) (h : parseCommandLine prog av = .exit st out) :
    main prog av penv cenv = ⟨out, .exited st, none⟩ := by
  unfold main
  rw [h]

theorem launch_child (args : arguments) (flags : Nat) (penv : ParentEnv) (cenv : ChildEnv)
    (r : ChildResult) (h : (launch args flags penv cenv).child = some r) :
    r = childFunction args cenv := by
  unfold launch at h
  split_ifs at h <;> simp at h <;> exact h.symm

theorem launch_outcome (args : arguments) (flags : Nat) (penv : ParentEnv) (cenv : ChildEnv) :
    (launch args flags penv cenv).outcome
      = .exited (if (args.ipc && !penv.mq_open) || !penv.malloc || !penv.clone || !penv.waitpid
                 then EXIT_FAILURE else EXIT_SUCCESS) := by
  unfold launch
  cases args.ipc <;> cases penv.mq_open <;> cases penv.malloc <;> cases penv.clone <;>
    cases penv.waitpid <;> rfl

theorem project_process_launch (args : arguments) (flags : Nat) (penv : ParentEnv)
    (cenv : ChildEnv) :
    project [.process] (launch args flags penv cenv).parent
      = if (args.ipc && !penv.mq_open) || !penv.malloc then []
        else if !penv.clone then [.clone (flags ||| SIGCHLD)]
        else [.clone (flags ||| SIGCHLD), .waitpid] := by
  have hd : Stage.diagnostic ∉ [Stage.process] := by decide
  have hm : Stage.message ∉ [Stage.process] := by decide
  have e1 : project [.process] (prepareMQ args penv) = [] :=
    project_eq_nil _ _ _ _ (prepareMQ_stage args penv) hd hm
  have e2 : project [.process] (removeMQ args penv) = [] :=
    project_eq_nil _ _ _ _ (removeMQ_stage args penv) hd hm
  have e3 : ∀ q, project [.process] (receiveStage args penv q) = [] :=
    fun q => project_eq_nil _ _ _ _ (receiveStage_stage args penv q) hd hm
  have e4 : ∀ t, project [.process] (verbosely args t) = [] :=
    fun t => project_verbosely _ args t hd
  have e5 : project [.process] [] = [] := rfl
  have e6 : project [.process] [Call.malloc STACK_SIZE, .perror "Parent: main: malloc"] = [] := rfl
  have e7 : project [.process] [Call.malloc STACK_SIZE, .clone (flags ||| SIGCHLD),
      .perror "Parent: main: clone"] = [.clone (flags ||| SIGCHLD)] := rfl
  have e8 : project [.process] [Call.malloc STACK_SIZE, .clone (flags ||| SIGCHLD)]
      = [.clone (flags ||| SIGCHLD)] := rfl
  have e9 : project [.process] [Call.waitpid] = [.waitpid] := rfl
  have e10 : project [.process] [Call.perror "Parent: main: waitpid"] = [] := rfl
  unfold launch
  cases args.ipc <;> cases penv.mq_open <;> cases penv.malloc <;> cases penv.clone <;>
    cases penv.waitpid <;>
    simp only [if_true, if_false, Bool.false_eq_true, Bool.and_true, Bool.and_false,
      Bool.not_true, Bool.not_false, Bool.or_true, Bool.or_false, Bool.true_and, Bool.false_and,
      Bool.or_self, Bool.true_or, Bool.false_or,
      project_append, e1, e2, e3, e4, e5, e6, e7, e8, e9, e10, List.nil_append, List.append_nil,
      List.singleton_append]

theorem project_cons_of_mem (ss : List Stage) (c : Call) (t : List Call) (h : c.stage ∈ ss) :
    project ss (c :: t) = c :: project ss t := by
  unfold project
  rw [List.filter_cons_of_pos]
  rw [List.contains_iff_exists_mem_beq]
  exact ⟨_, h, beq_self_eq_true _⟩

theorem project_cons_of_not_mem (ss : List Stage) (c : Call) (t : List Call) (h : c.stage ∉ ss) :
    project ss (c :: t) = project ss t := by
  unfold project
  rw [List.filter_cons_of_neg]
  rw [List.contains_iff_exists_mem_beq]
  rintro ⟨s, hs, e⟩
  rw [beq_iff_eq] at e
  exact h (e ▸ hs)

theorem project_nil (ss : List Stage) : project ss [] = [] := rfl

/-! ## The stages of the child -/

theorem jailStage_ok (args : arguments) (env : ChildEnv) :
    (jailStage args env).2
      = (!args.jail || (args.path.isSome && env.chroot && env.chdir
          && (env.access_proc || env.mkdir))) := by
  unfold jailStage
  cases args.jail <;> cases args.path.isSome <;> cases env.chroot <;> cases env.chdir <;>
    cases env.access_proc <;> cases env.mkdir <;> rfl

theorem project_jailStage (args : arguments) (env : ChildEnv)
    (h : (jailStage args env).2 = true) :
    project [.jail, .procRemount, .hostname, .exec] (jailStage args env).1
      = if args.jail then
          [.chroot args.path, .chdir "/", .access "/proc"]
            ++ (if env.access_proc then [] else [.mkdir "/proc" 0o555])
        else [] := by
  have hd : Stage.diagnostic ∉ [Stage.jail, .procRemount, .hostname, .exec] := by decide
  have hv := fun t => project_verbosely _ args t hd
  revert h
  unfold jailStage
  cases args.jail <;> cases args.path.isSome <;> cases env.chroot <;> cases env.chdir <;>
    cases env.access_proc <;> cases env.mkdir <;>
    simp only [if_true, if_false, Bool.false_eq_true, Bool.and_true, Bool.and_false,
      Bool.and_self, false_imp_iff, forall_const, project_append, hv, List.nil_append,
      List.append_nil] <;> rfl

theorem project_procRemount (ss : List Stage) (args : arguments) (env : ChildEnv)
    (hd : Stage.diagnostic ∉ ss) (hp : Stage.procRemount ∈ ss) :
    project ss (procRemount args env)
      = if args.flags &&& CLONE_NEWPID ≠ 0 ∧ args.flags &&& CLONE_NEWNS ≠ 0 then
          (if args.jail then [] else [.mount "none" "/proc" "" (MS_REC ||| MS_PRIVATE)])
            ++ [.mount "proc" "/proc" "proc" 0]
        else [] := by
  unfold procRemount
  by_cases hb : args.flags &&& CLONE_NEWPID ≠ 0 ∧ args.flags &&& CLONE_NEWNS ≠ 0
  · rw [if_pos hb, if_pos hb]
    cases args.jail <;> cases env.mount_private <;> cases env.mount_proc <;>
      simp [project_cons_of_mem, project_cons_of_not_mem, project_nil, hd, hp]
  · rw [if_neg hb, if_neg hb]
    rfl

theorem project_hostnameStage (ss : List Stage) (args : arguments) (env : ChildEnv)
    (hd : Stage.diagnostic ∉ ss) (hp : Stage.hostname ∈ ss) (t : List Call)
    (h : hostnameStage args env = some t) :
    project ss t
      = if args.flags &&& CLONE_NEWUTS ≠ 0 then
          (match args.hostname with
           | some name => [.sethostname name name.utf8ByteSize]
           | none => [])
        else [] := by
  unfold hostnameStage at h
  split_ifs at h <;> (try split at h) <;> cases h <;>
    simp_all [project_cons_of_mem, project_cons_of_not_mem, project_nil]

theorem execStage_of_command (ss : List Stage) (args : arguments) (env : ChildEnv)
    (command : List String) (hd : Stage.diagnostic ∉ ss) (he : Stage.exec ∈ ss)
    (h : args.command = some command) :
    project ss (execStage args env).1 = [.clearenv, .execvp command.head? command]
      ∧ (execStage args env).2
        = if env.execvp then .replaced command.head? command else .exited EXIT_FAILURE := by
  have hv := fun t => project_verbosely ss args t hd
  unfold execStage
  rw [h]
  cases env.execvp <;> cases env.clearenv <;>
    simp [project_append, hv, project_cons_of_mem, project_cons_of_not_mem, project_nil, hd, he]

theorem execStage_of_none (args : arguments) (env : ChildEnv) (h : args.command = none) :
    execStage args env = ([], .exited EXIT_SUCCESS) := by
  unfold execStage
  rw [h]

/-! ## The stages of the parent -/

theorem launch_parent (args : arguments) (flags : Nat) (penv : ParentEnv) (cenv : ChildEnv)
    (ho : args.ipc = true → penv.mq_open = true) (hm : penv.malloc = true)
    (hc : penv.clone = true) :
    (launch args flags penv cenv).parent
      = verbosely args "Parent: PID of parent is %d\n"
          ++ (if args.ipc then prepareMQ args penv else [])
          ++ [.malloc STACK_SIZE, .clone (flags ||| SIGCHLD)]
          ++ verbosely args "Parent: PID of child is %d\n"
          ++ receiveStage args penv (childFunction args cenv).sent ++ [.waitpid]
          ++ (if penv.waitpid then
                removeMQ args penv ++ verbosely args "Parent: %s - Finishing up\n"
              else [.perror "Parent: main: waitpid"]) := by
  unfold launch
  rw [hm, hc]
  revert ho
  cases args.ipc <;> cases penv.mq_open <;> cases penv.waitpid <;> intro ho <;>
    simp only [if_true, if_false, Bool.false_eq_true, Bool.not_true, Bool.not_false,
      Bool.and_false, Bool.and_true, Bool.false_and, List.append_assoc, forall_const,
      reduceCtorEq] at ho ⊢

theorem project_prepareMQ (ss : List Stage) (args : arguments) (penv : ParentEnv)
    (hd : Stage.diagnostic ∉ ss) (hm : Stage.message ∈ ss) (ho : penv.mq_open = true) :
    project ss (prepareMQ args penv) = [.mq_open_create mq_name 10 81] := by
  unfold prepareMQ
  rw [ho, if_pos rfl, project_append, project_verbosely ss args _ hd]
  simp [project_cons_of_mem, project_nil, hm]

theorem project_removeMQ (ss : List Stage) (args : arguments) (penv : ParentEnv)
    (hd : Stage.diagnostic ∉ ss) (hm : Stage.message ∈ ss) (hi : args.ipc = true) :
    project ss (removeMQ args penv) = [.mq_close, .mq_unlink mq_name] := by
  have hv := fun t => project_verbosely ss args t hd
  unfold removeMQ
  rw [hi, if_pos rfl]
  cases penv.mq_close <;> cases penv.mq_unlink <;>
    simp [project_append, hv, project_cons_of_mem, project_cons_of_not_mem, project_nil, hd, hm]

theorem receiveStage_none (args : arguments) (penv : ParentEnv) (hi : args.ipc = true) :
    receiveStage args penv none
      = .clock_gettime ::
          (match penv.clock with
           | none => [.perror "Parent: main: clock_gettime"]
           | some (t, ns) =>
             .mq_getattr ::
               (match penv.mq_getattr with
                | none => [.perror "Parent: main: mq_getattr"]
                | some n =>
                  [.malloc n, .mq_timedreceive n (t + 60) ns,
                    .perror "Parent: main: mq_timedreceive"])) := by
  unfold receiveStage
  rw [hi, if_pos rfl]
  cases penv.clock with
  | none => rfl
  | some p =>
    cases penv.mq_getattr with
    | none => rfl
    | some n => rfl

theorem project_receiveStage_none (ss : List Stage) (args : arguments) (penv : ParentEnv)
    (hd : Stage.diagnostic ∉ ss) (hm : Stage.message ∈ ss) (hi : args.ipc = true) :
    project ss (receiveStage args penv none)
      = .clock_gettime ::
          (match penv.clock with
           | none => []
           | some (t, ns) =>
             .mq_getattr ::
               (match penv.mq_getattr with
                | none => []
                | some n => [.malloc n, .mq_timedreceive n (t + 60) ns])) := by
  rw [receiveStage_none args penv hi]
  cases penv.clock with
  | none => simp [project_cons_of_mem, project_cons_of_not_mem, project_nil, hd, hm]
  | some p =>
    cases penv.mq_getattr with
    | none => simp [project_cons_of_mem, project_cons_of_not_mem, project_nil, hd, hm]
    | some n => simp [project_cons_of_mem, project_cons_of_not_mem, project_nil, hd, hm]

/-! ## The bytes of the message -/

theorem readLine_length : ∀ (k : Nat) (s : List Nat), (readLine k s).length ≤ k
  | 0, _ => by simp [readLine]
  | _ + 1, [] => by simp [readLine]
  | k + 1, c :: cs => by
    unfold readLine
    split_ifs
    · simp
    · simpa using readLine_length k cs

theorem readLine_takeWhile : ∀ (k : Nat) (line rest : List Nat), 10 ∉ line →
    (readLine k (line ++ 10 :: rest)).takeWhile (fun c => c != 0 && c != 10)
      = cstring (line.take k)
  | 0, _, _, _ => by simp [readLine, cstring]
  | _ + 1, [], _, _ => by simp [readLine, cstring]
  | k + 1, c :: cs, rest, h1 => by
    have hc1 : c ≠ 10 := fun e => h1 (e ▸ List.mem_cons_self _ _)
    have ih := readLine_takeWhile k cs rest (fun h => h1 (List.mem_cons_of_mem _ h))
    unfold cstring at ih ⊢
    rw [List.cons_append]
    unfold readLine
    rw [if_neg hc1, List.takeWhile_cons, ih, List.take_succ_cons, List.takeWhile_cons]
    simp [hc1]

theorem cstring_ne_zero (l : List Nat) : ∀ c ∈ cstring l, c ≠ 0 := by
  intro c hc
  unfold cstring at hc
  simpa using List.mem_takeWhile_imp hc

theorem cstring_of_not_mem (l : List Nat) (h : 0 ∉ l) : cstring l = l := by
  unfold cstring
  rw [List.takeWhile_eq_self_iff]
  intro c hc
  have : c ≠ 0 := fun e => h (e ▸ hc)
  simp [this]

theorem takeWhile_append_stop (f : Nat → Bool) (x : Nat) (hx : f x = false) :
    ∀ (l rest : List Nat), (l ++ x :: rest).takeWhile f = l.takeWhile f
  | [], rest => by simp [List.takeWhile_cons, hx]
  | c :: l, rest => by
    rw [List.cons_append, List.takeWhile_cons, List.takeWhile_cons,
      takeWhile_append_stop f x hx l rest]

theorem strcspn_newline_append (l rest : List Nat) :
    strcspn_newline (l ++ 0 :: rest) = (l.takeWhile (fun c => c != 0 && c != 10)).length := by
  unfold strcspn_newline
  rw [takeWhile_append_stop _ 0 rfl]

theorem set_terminator (f : Nat → Bool) (x : Nat) : ∀ (l rest : List Nat),
    ∃ junk, (l ++ x :: rest).set (l.takeWhile f).length 0 = l.takeWhile f ++ 0 :: junk
  | [], rest => ⟨rest, by simp⟩
  | c :: l, rest => by
    obtain ⟨junk, ih⟩ := set_terminator f x l rest
    cases hc : f c with
    | true =>
      refine ⟨junk, ?_⟩
      rw [List.takeWhile_cons, hc, if_pos rfl, List.cons_append, List.length_cons,
        List.set_cons_succ, ih, List.cons_append]
    | false =>
      refine ⟨l ++ x :: rest, ?_⟩
      rw [List.takeWhile_cons, hc]
      simp

theorem cstring_append (p junk : List Nat) (h : ∀ c ∈ p, c ≠ 0) :
    cstring (p ++ 0 :: junk) = p := by
  unfold cstring
  induction p with
  | nil => simp
  | cons c p ih =>
    have hc : c ≠ 0 := h c (List.mem_cons_self _ _)
    rw [List.cons_append, List.takeWhile_cons, ih (fun d hd => h d (List.mem_cons_of_mem _ hd))]
    simp [hc]

/-- The message built by lines 102-108 from the characters `l` that `fgets` has stored: it fits
the queue, and is the part of `l` in front of its first newline or `NUL`, a `NUL`, and bytes
that do not matter. -/
theorem message_of_line (n : Nat) (heap l : List Nat) (hl : l.length < n) :
    ∃ junk,
      ((store (buffer n heap) (l ++ [0])).set
          (strcspn_newline (store (buffer n heap) (l ++ [0]))) 0).take n
        = l.takeWhile (fun c => c != 0 && c != 10) ++ 0 :: junk := by
  have e : store (buffer n heap) (l ++ [0])
      = l ++ 0 :: (buffer n heap).drop (l.length + 1) := by
    unfold store
    simp
  rw [e, strcspn_newline_append]
  obtain ⟨junk, hj⟩ := set_terminator (fun c => c != 0 && c != 10) 0 l
    ((buffer n heap).drop (l.length + 1))
  rw [hj]
  have hp : (l.takeWhile (fun c => c != 0 && c != 10)).length < n :=
    lt_of_le_of_lt (List.takeWhile_sublist _).length_le hl
  refine ⟨junk.take (n - (l.takeWhile (fun c => c != 0 && c != 10)).length - 1), ?_⟩
  rw [List.take_append_eq_append_take, List.take_of_length_le (le_of_lt hp)]
  congr 1
  obtain ⟨k, hk⟩ : ∃ k, n - (l.takeWhile (fun c => c != 0 && c != 10)).length = k + 1 :=
    ⟨n - (l.takeWhile (fun c => c != 0 && c != 10)).length - 1, by omega⟩
  rw [hk, List.take_succ_cons]
  simp

theorem fgets_eq (n : Nat) (stdin : List Nat) (hn : 0 < n) (hs : stdin ≠ []) :
    fgets n stdin = some (readLine (n - 1) stdin) := by
  unfold fgets
  rw [if_neg (by omega)]
  by_cases h1 : n = 1
  · subst h1
    cases stdin <;> rfl
  · rw [if_neg h1]
    cases stdin with
    | nil => exact absurd rfl hs
    | cons c cs => rfl

/-- The message a successful handshake of the child puts on the queue. -/
theorem handshake_sent (args : arguments) (env : ChildEnv) (n : Nat) (hi : args.ipc = true)
    (ho : env.mq_open = true) (ha : env.mq_getattr = some n) (hs : env.mq_send = true)
    (hn : 0 < n) (hin : env.stdin ≠ []) :
    ∃ m junk, (handshake args env).2 = some m ∧ m.length ≤ n
      ∧ m = (readLine (n - 1) env.stdin).takeWhile (fun c => c != 0 && c != 10) ++ 0 :: junk := by
  have hl : (readLine (n - 1) env.stdin).length < n :=
    lt_of_le_of_lt (readLine_length _ _) (by omega)
  obtain ⟨junk, hj⟩ := message_of_line n env.heap (readLine (n - 1) env.stdin) hl
  refine ⟨_, junk, ?_, ?_, hj⟩
  · unfold handshake
    rw [hi, ho, ha]
    simp only [if_true]
    unfold sendLine
    rw [fgets_eq n env.stdin hn hin, hs]
    simp only [if_true]
  · exact List.length_take_le _ _

/-- What the parent displays when the message `p`, a `NUL` and `junk` arrive in time. -/
theorem receiveStage_of_message (args : arguments) (penv : ParentEnv) (n : Nat) (t ns : Int)
    (m p junk : List Nat) (hi : args.ipc = true) (hc : penv.clock = some (t, ns))
    (ha : penv.mq_getattr = some n) (hr : penv.mq_receive = true) (hm : m.length ≤ n)
    (e : m = p ++ 0 :: junk) (hp : ∀ c ∈ p, c ≠ 0) :
    receiveStage args penv (some m)
      = [.clock_gettime, .mq_getattr, .malloc n, .mq_timedreceive n (t + 60) ns]
          ++ verbosely args "Parent: received message from child\n" ++ [.printf_received p] := by
  have hs : cstring (store (buffer n penv.heap) m) = p := by
    unfold store
    rw [e, List.append_assoc, List.cons_append]
    exact cstring_append p _ hp
  unfold receiveStage mq_timedreceive
  rw [hi, hc, ha, hr]
  simp only [if_true, Bool.true_and, decide_eq_true_eq, hm, hs, List.append_assoc]

/-! ## The run of the parent with the handshake -/

theorem launch_child_some (args : arguments) (flags : Nat) (penv : ParentEnv) (cenv : ChildEnv)
    (r : ChildResult) (h : (launch args flags penv cenv).child = some r) :
    (args.ipc = true → penv.mq_open = true) ∧ penv.malloc = true ∧ penv.clone = true
      ∧ r = childFunction args cenv := by
  refine ⟨?_, ?_, ?_, launch_child args flags penv cenv r h⟩ <;> revert h <;> unfold launch <;>
    cases args.ipc <;> cases penv.mq_open <;> cases penv.malloc <;> cases penv.clone <;>
    cases penv.waitpid <;> simp

theorem handshake_of_closed (args : arguments) (env : ChildEnv) (h : env.mq_open = false) :
    (handshake args env).2 = none := by
  unfold handshake
  rw [h]
  cases args.ipc <;> rfl

theorem project_launch (args : arguments) (flags : Nat) (penv : ParentEnv) (cenv : ChildEnv)
    (hi : args.ipc = true) (ho : penv.mq_open = true) (hm : penv.malloc = true)
    (hc : penv.clone = true) :
    project [.message, .process] (launch args flags penv cenv).parent
      = [.mq_open_create mq_name 10 81, .malloc STACK_SIZE, .clone (flags ||| SIGCHLD)]
          ++ project [.message, .process] (receiveStage args penv (childFunction args cenv).sent)
          ++ [.waitpid]
          ++ (if penv.waitpid then [.mq_close, .mq_unlink mq_name] else []) := by
  have hd : Stage.diagnostic ∉ [Stage.message, .process] := by decide
  have hmm : Stage.message ∈ [Stage.message, .process] := by decide
  have hv := fun t => project_verbosely [.message, .process] args t hd
  rw [launch_parent args flags penv cenv (fun _ => ho) hm hc, hi]
  simp only [if_true, project_append, hv, project_prepareMQ _ args penv hd hmm ho,
    List.nil_append, List.append_nil]
  cases penv.waitpid
  · simp [project_cons_of_mem, project_cons_of_not_mem, project_nil]
  · simp only [if_true, project_append, hv, project_removeMQ _ args penv hd hmm hi]
    simp [project_cons_of_mem, project_cons_of_not_mem, project_nil]

theorem receiveStage_subset (args : arguments) (flags : Nat) (penv : ParentEnv)
    (cenv : ChildEnv) (ho : penv.mq_open = true) (hm : penv.malloc = true)
    (hc : penv.clone = true) :
    ∀ c ∈ receiveStage args penv (childFunction args cenv).sent,
      c ∈ (launch args flags penv cenv).parent := by
  intro c hx
  rw [launch_parent args flags penv cenv (fun _ => ho) hm hc]
  simp only [List.mem_append]
  exact Or.inl (Or.inl (Or.inr hx))

/-- The run of a parent whose child sends nothing. -/
theorem launch_silent (args : arguments) (flags : Nat) (penv : ParentEnv) (cenv : ChildEnv)
    (hi : args.ipc = true) (ho : penv.mq_open = true) (hm : penv.malloc = true)
    (hc : penv.clone = true) (hs : (childFunction args cenv).sent = none) :
    project [.message, .process] (launch args flags penv cenv).parent
        = [.mq_open_create mq_name 10 81, .malloc STACK_SIZE, .clone (flags ||| SIGCHLD),
            .clock_gettime]
          ++ (match penv.clock with
              | none => []
              | some (t, ns) =>
                .mq_getattr ::
                  (match penv.mq_getattr with
                   | none => []
                   | some n => [.malloc n, .mq_timedreceive n (t + 60) ns]))
          ++ [.waitpid]
          ++ (if penv.waitpid then [.mq_close, .mq_unlink mq_name] else [])
      ∧ (∀ m, Call.printf_received m ∉ (launch args flags penv cenv).parent)
      ∧ (∀ t ns n, penv.clock = some (t, ns) → penv.mq_getattr = some n →
          Call.perror "Parent: main: mq_timedreceive" ∈ (launch args flags penv cenv).parent) := by
  have hd : Stage.diagnostic ∉ [Stage.message, .process] := by decide
  have hmm : Stage.message ∈ [Stage.message, .process] := by decide
  have key := project_launch args flags penv cenv hi ho hm hc
  rw [hs, project_receiveStage_none _ args penv hd hmm hi] at key
  have key2 : project [.message, .process] (launch args flags penv cenv).parent
      = [.mq_open_create mq_name 10 81, .malloc STACK_SIZE, .clone (flags ||| SIGCHLD),
          .clock_gettime]
        ++ (match penv.clock with
            | none => []
            | some (t, ns) =>
              .mq_getattr ::
                (match penv.mq_getattr with
                 | none => []
                 | some n => [.malloc n, .mq_timedreceive n (t + 60) ns]))
        ++ [.waitpid]
        ++ (if penv.waitpid then [.mq_close, .mq_unlink mq_name] else []) := by
    exact key.trans rfl
  refine ⟨key2, ?_, ?_⟩
  · intro m hx
    have hx' : Call.printf_received m
        ∈ project [.message, .process] (launch args flags penv cenv).parent :=
      (mem_project _ _ _).mpr ⟨hx, hmm⟩
    rw [key2] at hx'
    revert hx'
    cases penv.clock with
    | none => cases penv.waitpid <;> simp
    | some p =>
      cases penv.mq_getattr with
      | none => cases penv.waitpid <;> simp
      | some n => cases penv.waitpid <;> simp
  · intro t ns n h1 h2
    apply receiveStage_subset args flags penv cenv ho hm hc
    rw [hs, receiveStage_none args penv hi, h1, h2]
    simp

theorem launch_child_eq (args : arguments) (flags : Nat) (penv : ParentEnv) (cenv : ChildEnv)
    (ho : args.ipc = true → penv.mq_open = true) (hm : penv.malloc = true)
    (hc : penv.clone = true) :
    (launch args flags penv cenv).child = some (childFunction args cenv) := by
  unfold launch
  rw [hm, hc]
  revert ho
  cases args.ipc <;> cases penv.mq_open <;> cases penv.waitpid <;> simp

/-! ## Flags and options -/

theorem capabilities_and (opts : List (Char × Option String)) (k : Nat) :
    capabilities opts &&& 2 ^ k ≠ 0 ↔ ∃ o ∈ opts, (capabilityOf o).testBit k = true := by
  rw [and_two_pow_ne_zero, capabilities_testBit, List.any_eq_true]

theorem lastOption_eq_some (c : Char) (opts : List (Char × Option String))
    (o : Char × Option String) (h : lastOption c opts = some o) : o ∈ opts ∧ o.1 = c := by
  unfold lastOption at h
  have := List.mem_of_getLast?_eq_some h
  rw [List.mem_filter] at this
  exact ⟨this.1, by simpa using this.2⟩

theorem lastOption_eq_none (c : Char) (opts : List (Char × Option String))
    (h : lastOption c opts = none) : ∀ o ∈ opts, o.1 ≠ c := by
  unfold lastOption at h
  rw [List.getLast?_eq_none_iff, List.filter_eq_nil_iff] at h
  intro o ho
  simpa using h o ho

theorem lastArgument_isSome (c : Char) (opts : List (Char × Option String))
    (h : ∀ o ∈ opts, o.1 = c → o.2.isSome = true) :
    (lastArgument c opts).isSome = true ↔ ∃ o ∈ opts, o.1 = c := by
  unfold lastArgument
  cases hl : lastOption c opts with
  | none =>
    simp only [Option.bind, Option.isSome_none, Bool.false_eq_true, false_iff, not_exists, not_and]
    exact lastOption_eq_none c opts hl
  | some o =>
    obtain ⟨ho, hc⟩ := lastOption_eq_some c opts o hl
    simp only [Option.bind]
    exact ⟨fun _ => ⟨o, ho, hc⟩, fun _ => h o ho hc⟩

theorem parse_hostname_iff (prog : String) (av : List String) (args : arguments)
    (flags : Nat) (ops : List String) (h : parseCommandLine prog av = .ok args flags ops) :
    args.hostname.isSome = true ↔ args.flags &&& CLONE_NEWUTS ≠ 0 := by
  obtain ⟨-, -, hf, hff, -, -, -, -, hh, -⟩ := parse_ok prog av args flags ops h
  have e3 : CLONE_NEWUTS = 2 ^ 26 := by decide
  rw [hh, hff, hf, e3, capabilities_and,
    lastArgument_isSome 'u' _ (fun o ho hc => optionsGiven_optarg av o ho (Or.inl hc))]
  simp only [capabilityOf_testBit]
  simp

/-! ## The specification -/

/-- C1: for a command line all of whose options are accepted (any of `-v -p -m -u <hostname> -n
-i no|yes -c <dir>`, in any order and number), `main` builds a configuration whose flags, which
are also the local `flags`, contain `CLONE_NEWPID` iff `-p` was given, `CLONE_NEWNS` iff `-m`,
`CLONE_NEWUTS` iff `-u`, `CLONE_NEWNET` iff `-n`, `CLONE_NEWIPC` iff `-i yes`, and no other bit;
whatever the calls of the run return, the only `clone` made is given these flags or-ed with
`SIGCHLD`, and the child it creates runs `childFunction` on this configuration. -/
theorem flags_reflect_options (prog : String) (av : List String)
    (hv : ∀ o ∈ optionsGiven av, validOption o = true) :
    ∃ args, parseCommandLine prog av = .ok args args.flags (operandsGiven av)
      ∧ (args.flags &&& CLONE_NEWPID ≠ 0 ↔ ∃ o ∈ optionsGiven av, o.1 = 'p')
      ∧ (args.flags &&& CLONE_NEWNS ≠ 0 ↔ ∃ o ∈ optionsGiven av, o.1 = 'm')
      ∧ (args.flags &&& CLONE_NEWUTS ≠ 0 ↔ ∃ o ∈ optionsGiven av, o.1 = 'u')
      ∧ (args.flags &&& CLONE_NEWNET ≠ 0 ↔ ∃ o ∈ optionsGiven av, o.1 = 'n')
      ∧ (args.flags &&& CLONE_NEWIPC ≠ 0 ↔ ('i', some "yes") ∈ optionsGiven av)
      ∧ (∀ k, args.flags.testBit k = true →
          2 ^ k = CLONE_NEWPID ∨ 2 ^ k = CLONE_NEWNS ∨ 2 ^ k = CLONE_NEWUTS
            ∨ 2 ^ k = CLONE_NEWNET ∨ 2 ^ k = CLONE_NEWIPC)
      ∧ ∀ penv cenv,
          project [.process] (main prog av penv cenv).parent
              = (if (args.ipc && !penv.mq_open) || !penv.malloc then []
                 else if !penv.clone then [.clone (args.flags ||| SIGCHLD)]
                 else [.clone (args.flags ||| SIGCHLD), .waitpid])
            ∧ ∀ r, (main prog av penv cenv).child = some r → r = childFunction args cenv := by
  obtain ⟨args, h⟩ := parse_of_valid prog av hv
  obtain ⟨-, -, hf, -⟩ := parse_ok prog av args args.flags _ h
  have e1 : CLONE_NEWPID = 2 ^ 29 := by decide
  have e2 : CLONE_NEWNS = 2 ^ 17 := by decide
  have e3 : CLONE_NEWUTS = 2 ^ 26 := by decide
  have e4 : CLONE_NEWNET = 2 ^ 30 := by decide
  have e5 : CLONE_NEWIPC = 2 ^ 27 := by decide
  refine ⟨args, h, ?_, ?_, ?_, ?_, ?_, ?_, ?_⟩
  · rw [hf, e1, capabilities_and]
    simp only [capabilityOf_testBit]
    simp
  · rw [hf, e2, capabilities_and]
    simp only [capabilityOf_testBit]
    simp
  · rw [hf, e3, capabilities_and]
    simp only [capabilityOf_testBit]
    simp
  · rw [hf, e4, capabilities_and]
    simp only [capabilityOf_testBit]
    simp
  · rw [hf, e5, capabilities_and]
    simp only [capabilityOf_testBit]
    simp
  · intro k hk
    rw [hf, capabilities_testBit, List.any_eq_true] at hk
    obtain ⟨o, -, ho⟩ := hk
    rw [capabilityOf_testBit] at ho
    rcases ho with ⟨rfl, -⟩ | ⟨rfl, -⟩ | ⟨rfl, -⟩ | ⟨rfl, -⟩ | ⟨rfl, -⟩
    · exact Or.inl e1.symm
    · exact Or.inr (Or.inl e2.symm)
    · exact Or.inr (Or.inr (Or.inl e3.symm))
    · exact Or.inr (Or.inr (Or.inr (Or.inl e4.symm)))
    · exact Or.inr (Or.inr (Or.inr (Or.inr e5.symm)))
  · intro penv cenv
    rw [main_of_ok prog av penv cenv args args.flags _ h]
    exact ⟨project_process_launch args args.flags penv cenv, fun r => launch_child _ _ _ _ r⟩

/-- The example of C1: `-p -m` yields exactly `CLONE_NEWPID` and `CLONE_NEWNS`. -/
theorem flags_reflect_options_witness :
    (∀ o ∈ optionsGiven ["-p", "-m"], validOption o = true)
      ∧ ∃ args, parseCommandLine "ns" ["-p", "-m"] = .ok args args.flags []
          ∧ args.flags &&& CLONE_NEWPID ≠ 0 ∧ args.flags &&& CLONE_NEWNS ≠ 0
          ∧ ¬ args.flags &&& CLONE_NEWUTS ≠ 0 ∧ ¬ args.flags &&& CLONE_NEWNET ≠ 0
          ∧ ¬ args.flags &&& CLONE_NEWIPC ≠ 0 := by
  refine ⟨by decide, ?_⟩
  obtain ⟨args, h, hp, hm, hu, hn, hi, -⟩ := flags_reflect_options "ns" ["-p", "-m"] (by decide)
  exact ⟨args, h, hp.mpr (by decide), hm.mpr (by decide), fun x => absurd (hu.mp x) (by decide),
    fun x => absurd (hn.mp x) (by decide), fun x => absurd (hi.mp x) (by decide)⟩

/-- C9: in a configuration that `main` has parsed without leaving the program, the hostname is
present iff the flag `CLONE_NEWUTS` is set, the jail path is present iff the jail is requested,
and they are the arguments of the last `-u` and of the last `-c` option given. -/
theorem hostname_and_path_present (prog : String) (av : List String) (args : arguments)
    (flags : Nat) (ops : List String) (h : parseCommandLine prog av = .ok args flags ops) :
    (args.hostname.isSome = true ↔ args.flags &&& CLONE_NEWUTS ≠ 0)
      ∧ (args.path.isSome = true ↔ args.jail = true)
      ∧ args.hostname = lastArgument 'u' (optionsGiven av)
      ∧ args.path = lastArgument 'c' (optionsGiven av) := by
  obtain ⟨-, -, -, -, -, -, hj, hp, hh, -⟩ := parse_ok prog av args flags ops h
  refine ⟨parse_hostname_iff prog av args flags ops h, ?_, hh, hp⟩
  · rw [hp, hj, List.any_eq_true,
      lastArgument_isSome 'c' _ (fun o ho hc => optionsGiven_optarg av o ho (Or.inr (Or.inr hc)))]
    simp

/-- An instance of C9: `-u a -c /x -u b` gives the hostname `b` and the jail path `/x`. -/
theorem hostname_and_path_present_witness :
    ∃ args, parseCommandLine "ns" ["-u", "a", "-c", "/x", "-u", "b"] = .ok args args.flags []
      ∧ args.hostname = some "b" ∧ args.path = some "/x"
      ∧ args.flags &&& CLONE_NEWUTS ≠ 0 ∧ args.jail = true := by
  obtain ⟨args, h⟩ := parse_of_valid "ns" ["-u", "a", "-c", "/x", "-u", "b"] (by decide)
  obtain ⟨h1, h2, h3, h4⟩ := hostname_and_path_present "ns" _ args _ _ h
  have e3 : args.hostname = some "b" := h3.trans (by decide)
  have e4 : args.path = some "/x" := h4.trans (by decide)
  exact ⟨args, h, e3, e4, h1.mp (by rw [e3]; rfl), h2.mp (by rw [e4]; rfl)⟩

/-- C3: when `childFunction` gets past the jail stage, it makes a mount call iff both
`CLONE_NEWPID` and `CLONE_NEWNS` are in the flags: with both, the mounts of the trace are the
mount that makes `/proc` private (only outside a jail) followed by the mount of a new proc
filesystem on `/proc`; with one of the two or none, the trace has no mount call at all. -/
theorem proc_remount_iff (args : arguments) (env : ChildEnv)
    (h : (jailStage args env).2 = true) :
    ((∃ s t f k, Call.mount s t f k ∈ (childFunction args env).trace)
        ↔ args.flags &&& CLONE_NEWPID ≠ 0 ∧ args.flags &&& CLONE_NEWNS ≠ 0)
      ∧ (∀ s t f k, Call.mount s t f k ∈ (childFunction args env).trace → t = "/proc")
      ∧ project [.procRemount] (childFunction args env).trace
          = if args.flags &&& CLONE_NEWPID ≠ 0 ∧ args.flags &&& CLONE_NEWNS ≠ 0 then
              (if args.jail then [] else [.mount "none" "/proc" "" (MS_REC ||| MS_PRIVATE)])
                ++ [.mount "proc" "/proc" "proc" 0]
            else [] := by
  have hd : Stage.diagnostic ∉ [Stage.procRemount] := by decide
  have hm : Stage.message ∉ [Stage.procRemount] := by decide
  have hj : Stage.jail ∉ [Stage.procRemount] := by decide
  have hh : Stage.hostname ∉ [Stage.procRemount] := by decide
  have he : Stage.exec ∉ [Stage.procRemount] := by decide
  have hp : Stage.procRemount ∈ [Stage.procRemount] := by decide
  have key : project [.procRemount] (childFunction args env).trace
      = if args.flags &&& CLONE_NEWPID ≠ 0 ∧ args.flags &&& CLONE_NEWNS ≠ 0 then
          (if args.jail then [] else [.mount "none" "/proc" "" (MS_REC ||| MS_PRIVATE)])
            ++ [.mount "proc" "/proc" "proc" 0]
        else [] := by
    rw [project_childFunction _ args env hd hm, h, if_pos rfl,
      project_eq_nil _ _ _ _ (jailStage_stage args env) hd hj, List.nil_append,
      project_procRemount _ args env hd hp]
    cases hs : hostnameStage args env with
    | none => simp only [List.append_nil]
    | some t =>
      simp only [project_eq_nil _ _ _ _ (hostnameStage_stage args env t hs) hd hh,
        project_eq_nil _ _ _ _ (execStage_stage args env) hd he, List.append_nil]
  have mem : ∀ s t f k, Call.mount s t f k ∈ (childFunction args env).trace
      ↔ Call.mount s t f k ∈ project [.procRemount] (childFunction args env).trace := by
    intro s t f k
    rw [mem_project]
    exact ⟨fun x => ⟨x, hp⟩, fun x => x.1⟩
  refine ⟨?_, ?_, key⟩
  · constructor
    · rintro ⟨s, t, f, k, hc⟩
      rw [mem, key] at hc
      by_contra hb
      rw [if_neg hb] at hc
      cases hc
    · intro hb
      refine ⟨"proc", "/proc", "proc", 0, ?_⟩
      rw [mem, key, if_pos hb]
      simp
  · intro s t f k hc
    rw [mem, key] at hc
    split_ifs at hc <;> simp at hc
    · exact hc.2.1
    · rcases hc with hc | hc
      · exact hc.2.1
      · exact hc.2.1

/-- An instance of C3: with `-p` alone the child makes no mount call. -/
theorem proc_remount_iff_witness :
    project [.procRemount]
      (childFunction { initialArguments with flags := CLONE_NEWPID } succeedingChild).trace = []
      ∧ ¬ ∃ s t f k, Call.mount s t f k
          ∈ (childFunction { initialArguments with flags := CLONE_NEWPID } succeedingChild).trace := by
  have h := proc_remount_iff { initialArguments with flags := CLONE_NEWPID } succeedingChild
    (by decide)
  exact ⟨h.2.2.trans (by decide), fun x => absurd (h.1.mp x) (by decide)⟩

/-- C4: when the jail is requested and one of its steps fails (`chroot` to the jail path,
`chdir` to `/`, or the creation of a missing `/proc`), the child ends at once with the non-zero
status `EXIT_FAILURE`, and its trace has no call of a later stage: no mount, no `sethostname`,
no `clearenv` and no `execvp`. -/
theorem jail_failure_is_fatal (args : arguments) (env : ChildEnv) (hj : args.jail = true)
    (hf : env.chroot = false ∨ env.chdir = false
      ∨ (env.access_proc = false ∧ env.mkdir = false)) :
    (childFunction args env).outcome = .exited EXIT_FAILURE ∧ EXIT_FAILURE ≠ 0
      ∧ project [.procRemount, .hostname, .exec] (childFunction args env).trace = []
      ∧ ∀ c ∈ (childFunction args env).trace,
          c.stage = .diagnostic ∨ c.stage = .message ∨ c.stage = .jail := by
  have hd : Stage.diagnostic ∉ [Stage.procRemount, .hostname, .exec] := by decide
  have hm : Stage.message ∉ [Stage.procRemount, .hostname, .exec] := by decide
  have hjl : Stage.jail ∉ [Stage.procRemount, .hostname, .exec] := by decide
  have h2 : (jailStage args env).2 = false := by
    rw [jailStage_ok, hj]
    rcases hf with h | h | ⟨h, h'⟩
    · rw [h]; simp
    · rw [h]; simp
    · rw [h, h']; simp
  refine ⟨?_, by decide, ?_, ?_⟩
  · rw [childFunction_outcome, h2]
    rfl
  · rw [project_childFunction _ args env hd hm, h2,
      project_eq_nil _ _ _ _ (jailStage_stage args env) hd hjl]
    rfl
  · intro c hc
    rw [childFunction_trace, h2] at hc
    simp only [Bool.false_eq_true, if_false, List.append_nil, List.mem_append] at hc
    rcases hc with (hc | hc) | hc
    · exact Or.inl (verbosely_stage _ _ c hc)
    · rcases handshake_stage args env c hc with e | e
      · exact Or.inl e
      · exact Or.inr (Or.inl e)
    · rcases jailStage_stage args env c hc with e | e
      · exact Or.inl e
      · exact Or.inr (Or.inr e)

/-- An instance of C4: a jail in a directory that does not exist. -/
theorem jail_failure_is_fatal_witness :
    (childFunction jailedArguments failingChroot).outcome = .exited EXIT_FAILURE
      ∧ project [.procRemount, .hostname, .exec]
          (childFunction jailedArguments failingChroot).trace = [] :=
  ⟨(jail_failure_is_fatal jailedArguments failingChroot rfl (Or.inl rfl)).1,
    (jail_failure_is_fatal jailedArguments failingChroot rfl (Or.inl rfl)).2.2.1⟩

/-- C8: in a configuration parsed from a command line without trailing arguments the command
is `NULL`, the child calls neither `clearenv` nor `execvp`, and when it gets past the jail
stage it ends with `exit(EXIT_SUCCESS)`; the child calls `execvp` only when trailing arguments
were given, and then on exactly these. -/
theorem no_command_no_exec (prog : String) (av : List String) (args : arguments) (flags : Nat)
    (ops : List String) (h : parseCommandLine prog av = .ok args flags ops) (env : ChildEnv) :
    (ops = [] →
        args.command = none
          ∧ Call.clearenv ∉ (childFunction args env).trace
          ∧ (∀ f a, Call.execvp f a ∉ (childFunction args env).trace)
          ∧ ((jailStage args env).2 = true →
              (childFunction args env).outcome = .exited EXIT_SUCCESS))
      ∧ (∀ f a, Call.execvp f a ∈ (childFunction args env).trace →
          ops ≠ [] ∧ f = ops.head? ∧ a = ops) := by
  have hd : Stage.diagnostic ∉ [Stage.exec] := by decide
  have hm : Stage.message ∉ [Stage.exec] := by decide
  have hj : Stage.jail ∉ [Stage.exec] := by decide
  have hp : Stage.procRemount ∉ [Stage.exec] := by decide
  have hh : Stage.hostname ∉ [Stage.exec] := by decide
  have he : Stage.exec ∈ [Stage.exec] := by decide
  obtain ⟨-, -, -, -, -, -, -, -, -, hc⟩ := parse_ok prog av args flags ops h
  obtain ⟨t, ht⟩ := hostnameStage_isSome args env (parse_hostname_iff prog av args flags ops h).mpr
  have key : project [.exec] (childFunction args env).trace
      = if (jailStage args env).2 then project [.exec] (execStage args env).1 else [] := by
    rw [project_childFunction _ args env hd hm, ht,
      project_eq_nil _ _ _ _ (jailStage_stage args env) hd hj,
      project_eq_nil _ _ _ _ (procRemount_stage args env) hd hp]
    simp only [project_eq_nil _ _ _ _ (hostnameStage_stage args env t ht) hd hh,
      List.nil_append]
  constructor
  · intro h0
    rw [if_pos h0] at hc
    have e : project [.exec] (childFunction args env).trace = [] := by
      rw [key, execStage_of_none args env hc]
      cases (jailStage args env).2 <;> rfl
    refine ⟨hc, ?_, ?_, ?_⟩
    · intro hx
      have : Call.clearenv ∈ project [.exec] (childFunction args env).trace :=
        (mem_project _ _ _).mpr ⟨hx, he⟩
      rw [e] at this
      cases this
    · intro f a hx
      have : Call.execvp f a ∈ project [.exec] (childFunction args env).trace :=
        (mem_project _ _ _).mpr ⟨hx, he⟩
      rw [e] at this
      cases this
    · intro hjs
      rw [childFunction_outcome, hjs, ht, execStage_of_none args env hc]
      rfl
  · intro f a hx
    have hx' : Call.execvp f a ∈ project [.exec] (childFunction args env).trace :=
      (mem_project _ _ _).mpr ⟨hx, he⟩
    by_cases h0 : ops = []
    · rw [if_pos h0] at hc
      rw [key, execStage_of_none args env hc] at hx'
      revert hx'
      cases (jailStage args env).2 <;> intro hx' <;> cases hx'
    · rw [if_neg h0] at hc
      rw [key, (execStage_of_command _ args env ops hd he hc).1] at hx'
      revert hx'
      cases (jailStage args env).2 <;> intro hx'
      · cases hx'
      · simp at hx'
        exact ⟨h0, hx'.1, hx'.2⟩

/-- An instance of C8: `-p -m` without a command. -/
theorem no_command_no_exec_witness :
    ∃ args, parseCommandLine "ns" ["-p", "-m"] = .ok args args.flags []
      ∧ args.command = none
      ∧ Call.clearenv ∉ (childFunction args succeedingChild).trace
      ∧ (childFunction args succeedingChild).outcome = .exited EXIT_SUCCESS := by
  obtain ⟨args, h⟩ := parse_of_valid "ns" ["-p", "-m"] (by decide)
  obtain ⟨h1, h2, -, h4⟩ := (no_command_no_exec "ns" ["-p", "-m"] args _ _ h succeedingChild).1 rfl
  refine ⟨args, h, h1, h2, h4 ?_⟩
  obtain ⟨-, -, -, -, -, -, hj, -⟩ := parse_ok _ _ _ _ _ h
  rw [jailStage_ok, hj]
  rfl

/-- C10: for a configuration parsed from a command line with a command, and a child whose jail
stage does not fail, the calls of the jail, mount, hostname and command stages are, in this
order: the jail calls when the jail is requested; the mounts iff both `CLONE_NEWPID` and
`CLONE_NEWNS` are set; `sethostname` iff `CLONE_NEWUTS` is set; then `clearenv` and `execvp` of
the command with all its arguments. No outcome of a call of the handshake, of a mount, of
`sethostname` or of `clearenv` changes this, and the child ends in the command when `execvp`
succeeds, and with `EXIT_FAILURE` when it fails. -/
theorem degraded_steps_continue (prog : String) (av : List String) (args : arguments)
    (flags : Nat) (ops : List String) (h : parseCommandLine prog av = .ok args flags ops)
    (hc : ops ≠ []) (env : ChildEnv) (hj : (jailStage args env).2 = true) :
    ops = operandsGiven av
      ∧ project [.jail, .procRemount, .hostname, .exec] (childFunction args env).trace
        = (if args.jail then
            [.chroot args.path, .chdir "/", .access "/proc"]
              ++ (if env.access_proc then [] else [.mkdir "/proc" 0o555])
           else [])
          ++ (if args.flags &&& CLONE_NEWPID ≠ 0 ∧ args.flags &&& CLONE_NEWNS ≠ 0 then
                (if args.jail then [] else [.mount "none" "/proc" "" (MS_REC ||| MS_PRIVATE)])
                  ++ [.mount "proc" "/proc" "proc" 0]
              else [])
          ++ (if args.flags &&& CLONE_NEWUTS ≠ 0 then
                (match args.hostname with
                 | some name => [.sethostname name name.utf8ByteSize]
                 | none => [])
              else [])
          ++ [.clearenv, .execvp ops.head? ops]
      ∧ (childFunction args env).outcome
        = if env.execvp then .replaced ops.head? ops else .exited EXIT_FAILURE := by
  have hd : Stage.diagnostic ∉ [Stage.jail, .procRemount, .hostname, .exec] := by decide
  have hm : Stage.message ∉ [Stage.jail, .procRemount, .hostname, .exec] := by decide
  have hp : Stage.procRemount ∈ [Stage.jail, .procRemount, .hostname, .exec] := by decide
  have hh : Stage.hostname ∈ [Stage.jail, .procRemount, .hostname, .exec] := by decide
  have he : Stage.exec ∈ [Stage.jail, .procRemount, .hostname, .exec] := by decide
  obtain ⟨ho, -, -, -, -, -, -, -, -, hcmd⟩ := parse_ok prog av args flags ops h
  rw [if_neg hc] at hcmd
  obtain ⟨t, ht⟩ := hostnameStage_isSome args env (parse_hostname_iff prog av args flags ops h).mpr
  obtain ⟨e1, e2⟩ := execStage_of_command _ args env ops hd he hcmd
  refine ⟨ho, ?_, ?_⟩
  · rw [project_childFunction _ args env hd hm, hj, if_pos rfl, ht, project_jailStage args env hj,
      project_procRemount _ args env hd hp]
    simp only [project_hostnameStage _ args env hd hh t ht, e1, List.append_assoc]
  · rw [childFunction_outcome, hj, if_pos rfl, ht, e2]

/-- An instance of C10: `-p -m -u box sh -c ls` with a handshake-free child in which both
mounts, `sethostname` and `clearenv` fail. -/
theorem degraded_steps_continue_witness :
    ∃ args, parseCommandLine "ns" ["-p", "-m", "-u", "box", "sh", "-c", "ls"]
        = .ok args args.flags ["sh", "-c", "ls"]
      ∧ (childFunction args degradedChild).outcome = .replaced (some "sh") ["sh", "-c", "ls"]
      ∧ Call.execvp (some "sh") ["sh", "-c", "ls"] ∈ (childFunction args degradedChild).trace := by
  obtain ⟨args, h⟩ := parse_of_valid "ns" ["-p", "-m", "-u", "box", "sh", "-c", "ls"] (by decide)
  have hj : (jailStage args degradedChild).2 = true := by
    obtain ⟨-, -, -, -, -, -, hj, -⟩ := parse_ok _ _ _ _ _ h
    rw [jailStage_ok, hj]
    rfl
  obtain ⟨-, h2, h3⟩ := degraded_steps_continue "ns" _ args _ _ h (by decide) degradedChild hj
  refine ⟨args, h, h3, ?_⟩
  have : Call.execvp (some "sh") ["sh", "-c", "ls"]
      ∈ project [.jail, .procRemount, .hostname, .exec] (childFunction args degradedChild).trace := by
    rw [h2]
    exact List.mem_append_right _ (List.mem_cons_of_mem _ (List.mem_singleton.mpr rfl))
  exact ((mem_project _ _ _).mp this).1

/-- C2 as stated fails on `-h -i maybe`: the option `-i` carries the value `maybe`, yet `main`
has already left the program at `-h`, with the usage text and the status 0. -/
theorem bad_ipc_value_after_help :
    ('i', some "maybe") ∈ optionsGiven ["-h", "-i", "maybe"]
      ∧ main "ns" ["-h", "-i", "maybe"] succeedingParent succeedingChild
          = ⟨[.usage "ns"], .exited 0, none⟩ := by
  decide

/-- C2, amended: for a command line in which an `-i` option carries a value other than `no` and
`yes`, `main` writes the usage text and ends before it makes any call other than a diagnostic
(no queue is created and no process cloned), and no child runs. It ends at the first option it
rejects, with status 0 when this option is `-h` and with `EXIT_FAILURE` otherwise; so the
status is `EXIT_FAILURE` when no `-h` is given. -/
theorem bad_ipc_value_exits (prog : String) (av : List String) (o : Char × Option String)
    (ho : o ∈ optionsGiven av) (hi : o.1 = 'i') (hn : o.2 ≠ some "no") (hy : o.2 ≠ some "yes")
    (penv : ParentEnv) (cenv : ChildEnv) :
    Call.usage prog ∈ (main prog av penv cenv).parent
      ∧ (∀ c ∈ (main prog av penv cenv).parent, c.stage = .diagnostic)
      ∧ (main prog av penv cenv).child = none
      ∧ (∃ o1, (optionsGiven av).find? (fun o => !validOption o) = some o1
          ∧ (main prog av penv cenv).outcome
              = .exited (if o1.1 = 'h' then EXIT_SUCCESS else EXIT_FAILURE))
      ∧ ((∀ o1 ∈ optionsGiven av, o1.1 ≠ 'h') →
          (main prog av penv cenv).outcome = .exited EXIT_FAILURE)
      ∧ EXIT_FAILURE ≠ 0 := by
  have hbad : validOption o = false := by
    obtain ⟨c, x⟩ := o
    simp only at hi hn hy
    subst hi
    simp [validOption, hn, hy]
  cases hf : (optionsGiven av).find? (fun o => !validOption o) with
  | none =>
    have := List.find?_eq_none.mp hf o ho
    simp [hbad] at this
  | some o1 =>
    have hm := main_of_exit prog av penv cenv _ _ (parse_exit prog av o1 hf)
    rw [hm]
    refine ⟨?_, ?_, rfl, ⟨o1, rfl, rfl⟩, ?_, by decide⟩
    · unfold exitOutput
      split_ifs <;> simp
    · unfold exitOutput
      split_ifs <;> simp
    · intro hh
      have h1 : o1.1 ≠ 'h' := hh o1 (List.mem_of_find?_eq_some hf)
      simp only [exitStatus, if_neg h1]

/-- An instance of C2: `-p -i maybe sh`. -/
theorem bad_ipc_value_exits_witness :
    (main "ns" ["-p", "-i", "maybe", "sh"] succeedingParent succeedingChild).outcome
        = .exited EXIT_FAILURE
      ∧ (main "ns" ["-p", "-i", "maybe", "sh"] succeedingParent succeedingChild).child = none :=
  ⟨(bad_ipc_value_exits "ns" ["-p", "-i", "maybe", "sh"] ('i', some "maybe") (by decide) rfl
      (by decide) (by decide) succeedingParent succeedingChild).2.2.2.2.1 (by decide),
    (bad_ipc_value_exits "ns" ["-p", "-i", "maybe", "sh"] ('i', some "maybe") (by decide) rfl
      (by decide) (by decide) succeedingParent succeedingChild).2.2.1⟩

/-- C5 as stated fails: when the jail of the child fails (`-c /nonexistent sh`, `chroot` fails)
or the command cannot be run (`sh`, `execvp` fails), the child ends with status 1 but the
process running `main` ends with status 0. -/
theorem launcher_ignores_child_status :
    (main "ns" ["-c", "/nonexistent", "sh"] succeedingParent failingChroot).outcome = .exited 0
      ∧ (main "ns" ["-c", "/nonexistent", "sh"] succeedingParent failingChroot).child.map
          (fun r => r.outcome) = some (.exited 1)
      ∧ (main "ns" ["sh"] succeedingParent failingExecvp).outcome = .exited 0
      ∧ (main "ns" ["sh"] succeedingParent failingExecvp).child.map
          (fun r => r.outcome) = some (.exited 1) := by
  decide

/-- C5, amended: the process running `main` always ends with `exit`. When all options are
accepted, its status is `EXIT_FAILURE` if the queue cannot be created although `-i` was given,
if the stack of the child cannot be allocated, if `clone` fails or if `waitpid` fails, and
`EXIT_SUCCESS` otherwise; when an option is rejected, the status is `EXIT_SUCCESS` if the first
rejected option is `-h` and `EXIT_FAILURE` otherwise. The status is the same for every child:
neither a jail failure nor an `execvp` failure in the child changes it. -/
theorem launcher_exit_status (prog : String) (av : List String) (penv : ParentEnv)
    (cenv : ChildEnv) :
    ((∃ args, parseCommandLine prog av = .ok args args.flags (operandsGiven av)
          ∧ (main prog av penv cenv).outcome
              = .exited (if (args.ipc && !penv.mq_open) || !penv.malloc || !penv.clone
                            || !penv.waitpid
                         then EXIT_FAILURE else EXIT_SUCCESS))
        ∨ (∃ o, (optionsGiven av).find? (fun o => !validOption o) = some o
            ∧ (main prog av penv cenv).outcome
                = .exited (if o.1 = 'h' then EXIT_SUCCESS else EXIT_FAILURE)))
      ∧ (∀ cenv', (main prog av penv cenv').outcome = (main prog av penv cenv).outcome)
      ∧ EXIT_SUCCESS = 0 ∧ EXIT_FAILURE ≠ 0 := by
  refine ⟨?_, ?_, rfl, by decide⟩
  · cases hf : (optionsGiven av).find? (fun o => !validOption o) with
    | none =>
      left
      obtain ⟨args, h⟩ := parse_of_valid prog av (by
        intro o ho
        have := List.find?_eq_none.mp hf o ho
        simpa using this)
      exact ⟨args, h, by rw [main_of_ok prog av penv cenv _ _ _ h, launch_outcome]⟩
    | some o =>
      right
      exact ⟨o, rfl, by rw [main_of_exit prog av penv cenv _ _ (parse_exit prog av o hf)]; rfl⟩
  · intro cenv'
    cases hp : parseCommandLine prog av with
    | ok args flags ops =>
      rw [main_of_ok prog av penv cenv _ _ _ hp, main_of_ok prog av penv cenv' _ _ _ hp,
        launch_outcome, launch_outcome]
    | exit st out =>
      rw [main_of_exit prog av penv cenv _ _ hp, main_of_exit prog av penv cenv' _ _ hp]
    | fault => unfold main; rw [hp]
    | outOfFuel => unfold main; rw [hp]

/-- C7 as stated fails when `waitpid` fails: on `-i yes sh` with a child that sends nothing,
the receive of the parent fails, and after the failed `waitpid` the parent ends with status 1
without closing or unlinking the queue. -/
theorem waitpid_failure_is_fatal :
    (main "ns" ["-i", "yes", "sh"] failingWaitpid isolatedChild).child.map (fun r => r.sent)
        = some none
      ∧ (main "ns" ["-i", "yes", "sh"] failingWaitpid isolatedChild).outcome = .exited 1
      ∧ project [.message, .process]
          (main "ns" ["-i", "yes", "sh"] failingWaitpid isolatedChild).parent
        = [.mq_open_create "/ipc_namespace" 10 81, .malloc 65536, .clone 134217745,
            .clock_gettime, .mq_getattr, .malloc 81, .mq_timedreceive 81 1060 5, .waitpid] := by
  decide

/-- C7, amended: in a run with the handshake requested in which the child is created and sends
nothing, the calls of the parent other than diagnostics are, in this order: the creation of the
queue, of the stack and of the child; the reading of the clock, and when that succeeds of the
queue attributes, and when that succeeds the allocation of the buffer and a receive whose
deadline is the time read plus 60 seconds; then `waitpid`; and, when `waitpid` succeeds,
`mq_close` and `mq_unlink`. The receive fails and is reported by `perror`, no message is
displayed, and this is not fatal: the status is 0 when `waitpid` succeeds, whatever `mq_close`
and `mq_unlink` return, and `EXIT_FAILURE` when `waitpid` fails. -/
theorem receive_failure_not_fatal (prog : String) (av : List String) (args : arguments)
    (flags : Nat) (ops : List String) (h : parseCommandLine prog av = .ok args flags ops)
    (hi : args.ipc = true) (penv : ParentEnv) (cenv : ChildEnv) (r : ChildResult)
    (hr : (main prog av penv cenv).child = some r) (hs : r.sent = none) :
    (main prog av penv cenv).outcome
        = .exited (if penv.waitpid then EXIT_SUCCESS else EXIT_FAILURE)
      ∧ EXIT_SUCCESS = 0 ∧ EXIT_FAILURE ≠ 0
      ∧ project [.message, .process] (main prog av penv cenv).parent
        = [.mq_open_create mq_name 10 81, .malloc STACK_SIZE, .clone (flags ||| SIGCHLD),
            .clock_gettime]
          ++ (match penv.clock with
              | none => []
              | some (t, ns) =>
                .mq_getattr ::
                  (match penv.mq_getattr with
                   | none => []
                   | some n => [.malloc n, .mq_timedreceive n (t + 60) ns]))
          ++ [.waitpid]
          ++ (if penv.waitpid then [.mq_close, .mq_unlink mq_name] else [])
      ∧ (∀ m, Call.printf_received m ∉ (main prog av penv cenv).parent)
      ∧ (∀ t ns n, penv.clock = some (t, ns) → penv.mq_getattr = some n →
          Call.perror "Parent: main: mq_timedreceive" ∈ (main prog av penv cenv).parent) := by
  rw [main_of_ok prog av penv cenv args flags ops h] at hr ⊢
  obtain ⟨ho, hm, hc, rfl⟩ := launch_child_some args flags penv cenv r hr
  obtain ⟨k1, k2, k3⟩ := launch_silent args flags penv cenv hi (ho hi) hm hc hs
  refine ⟨?_, rfl, by decide, k1, k2, k3⟩
  rw [launch_outcome, hi, ho hi, hm, hc]
  cases penv.waitpid <;> rfl

/-- An instance of C7: `-i yes sh` with a child that cannot open the queue and a parent all of
whose calls but the receive succeed. -/
theorem receive_failure_not_fatal_witness :
    (main "ns" ["-i", "yes", "sh"] succeedingParent isolatedChild).outcome = .exited 0
      ∧ project [.message, .process]
          (main "ns" ["-i", "yes", "sh"] succeedingParent isolatedChild).parent
        = [.mq_open_create mq_name 10 81, .malloc STACK_SIZE, .clone (CLONE_NEWIPC ||| SIGCHLD),
            .clock_gettime, .mq_getattr, .malloc 81, .mq_timedreceive 81 1060 5, .waitpid,
            .mq_close, .mq_unlink mq_name] := by
  obtain ⟨args, h⟩ := parse_of_valid "ns" ["-i", "yes", "sh"] (by decide)
  obtain ⟨-, -, hf, -, -, hi, -⟩ := parse_ok _ _ _ _ _ h
  have hi' : args.ipc = true := hi.trans (by decide)
  have hr : (main "ns" ["-i", "yes", "sh"] succeedingParent isolatedChild).child
      = some (childFunction args isolatedChild) := by
    rw [main_of_ok _ _ _ _ _ _ _ h]
    exact launch_child_eq _ _ _ _ (fun _ => rfl) rfl rfl
  have hs : (childFunction args isolatedChild).sent = none := by
    rw [childFunction_sent]
    exact handshake_of_closed args isolatedChild rfl
  obtain ⟨h1, -, -, h3, -⟩ := receive_failure_not_fatal "ns" _ args _ _ h hi'
    succeedingParent isolatedChild _ hr hs
  refine ⟨h1, h3.trans ?_⟩
  rw [hf]
  rfl

/-- C6 as stated fails on `-i yes cat` with the input line `hi`: a child that cannot open the
queue of the parent (with `-i yes` it runs in a new IPC namespace) sends nothing, so the timed
receive of the parent fails and no message is displayed. -/
theorem isolated_child_sends_nothing :
    Call.perror " Child: childFunction: mq_open"
        ∈ ((main "ns" ["-i", "yes", "cat"] succeedingParent isolatedChild).child.map
            (fun r => r.trace)).getD []
      ∧ Call.perror "Parent: main: mq_timedreceive"
        ∈ (main "ns" ["-i", "yes", "cat"] succeedingParent isolatedChild).parent
      ∧ project [.message, .process]
          (main "ns" ["-i", "yes", "cat"] succeedingParent isolatedChild).parent
        = [.mq_open_create "/ipc_namespace" 10 81, .malloc 65536, .clone 134217745,
            .clock_gettime, .mq_getattr, .malloc 81, .mq_timedreceive 81 1060 5, .waitpid,
            .mq_close, .mq_unlink "/ipc_namespace"] := by
  decide

/-- C6, amended: take a run with the handshake requested (`-i no` or `-i yes`) in which the
child is created. If the child opens the queue, reads a message size `n > 0` and its send
succeeds, the parent reads the clock and the same message size `n`, and the message arrives
before the deadline, then for the input line of the child (the bytes of its standard input in
front of the first newline) the parent displays exactly one message: the line cut to `n - 1`
characters (80 for the 81 bytes of `prepareMQ`) and, as a C string, at its first `NUL`; for a
line without `NUL` this is the line cut to `n - 1` characters. If the child cannot open the
queue, it sends nothing, the parent displays no message, and a receive that the parent attempts
(the clock and the message size read) fails and is reported by `perror`. -/
theorem message_round_trip (prog : String) (av : List String) (args : arguments) (flags : Nat)
    (ops : List String) (h : parseCommandLine prog av = .ok args flags ops)
    (hi : args.ipc = true) (penv : ParentEnv) (cenv : ChildEnv) (r : ChildResult)
    (hr : (main prog av penv cenv).child = some r) :
    (∀ (n : Nat) (t ns : Int) (line rest : List Nat),
        cenv.mq_open = true → cenv.mq_getattr = some n → cenv.mq_send = true → 0 < n →
        penv.clock = some (t, ns) → penv.mq_getattr = some n → penv.mq_receive = true →
        cenv.stdin = line ++ 10 :: rest → 10 ∉ line →
        Call.printf_received (cstring (line.take (n - 1))) ∈ (main prog av penv cenv).parent
          ∧ project [.message, .process] (main prog av penv cenv).parent
            = [.mq_open_create mq_name 10 81, .malloc STACK_SIZE, .clone (flags ||| SIGCHLD),
                .clock_gettime, .mq_getattr, .malloc n, .mq_timedreceive n (t + 60) ns,
                .printf_received (cstring (line.take (n - 1))), .waitpid]
              ++ (if penv.waitpid then [.mq_close, .mq_unlink mq_name] else [])
          ∧ (0 ∉ line → cstring (line.take (n - 1)) = line.take (n - 1)))
      ∧ (cenv.mq_open = false →
          r.sent = none
            ∧ (∀ m, Call.printf_received m ∉ (main prog av penv cenv).parent)
            ∧ (∀ t ns n, penv.clock = some (t, ns) → penv.mq_getattr = some n →
                Call.perror "Parent: main: mq_timedreceive"
                  ∈ (main prog av penv cenv).parent)) := by
  have hd : Stage.diagnostic ∉ [Stage.message, .process] := by decide
  have hmm : Stage.message ∈ [Stage.message, .process] := by decide
  have hv := fun t => project_verbosely [.message, .process] args t hd
  rw [main_of_ok prog av penv cenv args flags ops h] at hr ⊢
  obtain ⟨ho, hm, hc, rfl⟩ := launch_child_some args flags penv cenv r hr
  constructor
  · intro n t ns line rest hco hca hcs hn hclock hpa hrv hin h10
    have hne : cenv.stdin ≠ [] := by
      rw [hin]
      cases line <;> simp
    obtain ⟨m, junk, e1, e2, e3⟩ := handshake_sent args cenv n hi hco hca hcs hn hne
    rw [hin, readLine_takeWhile _ _ _ h10] at e3
    have hrs := receiveStage_of_message args penv n t ns m _ junk hi hclock hpa hrv e2 e3
      (cstring_ne_zero _)
    have hsent : (childFunction args cenv).sent = some m := by
      rw [childFunction_sent, e1]
    refine ⟨?_, ?_, ?_⟩
    · apply receiveStage_subset args flags penv cenv (ho hi) hm hc
      rw [hsent, hrs]
      simp
    · rw [project_launch args flags penv cenv hi (ho hi) hm hc, hsent, hrs]
      simp only [project_append, hv, List.nil_append, List.append_nil]
      simp [project_cons_of_mem, project_cons_of_not_mem, project_nil]
    · intro h0
      exact cstring_of_not_mem _ (fun hx => h0 (List.mem_of_mem_take hx))
  · intro hco
    have hs : (childFunction args cenv).sent = none := by
      rw [childFunction_sent]
      exact handshake_of_closed args cenv hco
    obtain ⟨-, k2, k3⟩ := launch_silent args flags penv cenv hi (ho hi) hm hc hs
    exact ⟨hs, k2, k3⟩

/-- An instance of C6: `-i no cat` and an input line of 100 letters, of which the parent
displays the first 80. -/
theorem message_round_trip_witness :
    Call.printf_received (List.replicate 80 97)
      ∈ (main "ns" ["-i", "no", "cat"] succeedingParent longLineChild).parent := by
  obtain ⟨args, h⟩ := parse_of_valid "ns" ["-i", "no", "cat"] (by decide)
  obtain ⟨-, -, -, -, -, hi, -⟩ := parse_ok _ _ _ _ _ h
  have hi' : args.ipc = true := hi.trans (by decide)
  have hr : (main "ns" ["-i", "no", "cat"] succeedingParent longLineChild).child
      = some (childFunction args longLineChild) := by
    rw [main_of_ok _ _ _ _ _ _ _ h]
    exact launch_child_eq _ _ _ _ (fun _ => rfl) rfl rfl
  have h10 : 10 ∉ List.replicate 100 97 := by
    intro hx
    exact absurd (List.eq_of_mem_replicate hx) (by decide)
  have h0 : 0 ∉ List.replicate 100 97 := by
    intro hx
    exact absurd (List.eq_of_mem_replicate hx) (by decide)
  obtain ⟨k1, -, k3⟩ := (message_round_trip "ns" ["-i", "no", "cat"] args _ _ h hi'
    succeedingParent longLineChild _ hr).1 81 1000 5 (List.replicate 100 97) [] rfl rfl rfl
    (by decide) rfl rfl rfl rfl h10
  rw [k3 h0, List.take_replicate] at k1
  exact k1

end Namespaces
